import Mathlib

/-!
Shallow embedding of the UCP wireup lane selector
(src/ucp/wireup/select.c) and proofs about it.

Scores are modelled as rationals; capability flag words and bitmaps are
modelled as natural numbers used as bit sets.  External helpers that the
selector assumes from other layers (transport attribute records, the
reachability predicate, the p2p predicate) are inputs of the model, as
the specification lists them among the assumed downstream-provided
helpers.
-/

namespace UcpWireup

/-! Capability flag bits (uct.h flag universe; each flag is a distinct bit,
    mirroring the UCS_BIT assignments). -/

def UCT_IFACE_FLAG_AM_SHORT : Nat := 2 ^ 0
def UCT_IFACE_FLAG_AM_BCOPY : Nat := 2 ^ 1
def UCT_IFACE_FLAG_AM_ZCOPY : Nat := 2 ^ 2
def UCT_IFACE_FLAG_PENDING : Nat := 2 ^ 3
def UCT_IFACE_FLAG_PUT_SHORT : Nat := 2 ^ 4
def UCT_IFACE_FLAG_PUT_BCOPY : Nat := 2 ^ 5
def UCT_IFACE_FLAG_PUT_ZCOPY : Nat := 2 ^ 6
def UCT_IFACE_FLAG_GET_SHORT : Nat := 2 ^ 7
def UCT_IFACE_FLAG_GET_BCOPY : Nat := 2 ^ 8
def UCT_IFACE_FLAG_GET_ZCOPY : Nat := 2 ^ 9
def UCT_IFACE_FLAG_CONNECT_TO_IFACE : Nat := 2 ^ 10
def UCT_IFACE_FLAG_CONNECT_TO_EP : Nat := 2 ^ 11
def UCT_IFACE_FLAG_ERRHANDLE_PEER_FAILURE : Nat := 2 ^ 12
def UCT_IFACE_FLAG_CB_SYNC : Nat := 2 ^ 13
def UCT_IFACE_FLAG_CB_ASYNC : Nat := 2 ^ 14
def UCT_IFACE_FLAG_EVENT_SEND_COMP : Nat := 2 ^ 15
def UCT_IFACE_FLAG_EVENT_RECV : Nat := 2 ^ 16
def UCT_IFACE_FLAG_EVENT_RECV_SIG : Nat := 2 ^ 17
def UCT_IFACE_FLAG_TAG_EAGER_SHORT : Nat := 2 ^ 18
def UCT_IFACE_FLAG_TAG_EAGER_BCOPY : Nat := 2 ^ 19
def UCT_IFACE_FLAG_TAG_EAGER_ZCOPY : Nat := 2 ^ 20
def UCT_IFACE_FLAG_TAG_RNDV_ZCOPY : Nat := 2 ^ 21
def UCT_IFACE_FLAG_AM_DUP : Nat := 2 ^ 22

def UCT_MD_FLAG_ALLOC : Nat := 2 ^ 0
def UCT_MD_FLAG_REG : Nat := 2 ^ 1
def UCT_MD_FLAG_NEED_RKEY : Nat := 2 ^ 2

/-- Modelled from the spec: the wakeup-related receive-event capability set
    of the worker (ucp_worker.h, not under src).  The unsignaled flag set is
    the plain receive event; the full receive set adds the signaled one. -/
def UCP_WORKER_UCT_UNSIG_EVENT_CAP_FLAGS : Nat := UCT_IFACE_FLAG_EVENT_RECV

/-- Modelled from the spec: receive-event capability mask used by the proxy
    test, remote interface only advertises signaled receive events exactly
    when its cap flags intersected with this mask equal EVENT_RECV_SIG. -/
def UCP_WORKER_UCT_RECV_EVENT_CAP_FLAGS : Nat :=
  UCT_IFACE_FLAG_EVENT_RECV ||| UCT_IFACE_FLAG_EVENT_RECV_SIG

/-! Context feature bits (ucp.h features; distinct bits). -/

def UCP_FEATURE_TAG : Nat := 2 ^ 0
def UCP_FEATURE_RMA : Nat := 2 ^ 1
def UCP_FEATURE_AMO32 : Nat := 2 ^ 2
def UCP_FEATURE_AMO64 : Nat := 2 ^ 3
def UCP_FEATURE_WAKEUP : Nat := 2 ^ 4
def UCP_FEATURE_STREAM : Nat := 2 ^ 5
def UCP_FEATURE_AM : Nat := 2 ^ 6

/-! Endpoint init / create flags and endpoint parameter field-mask bits. -/

def UCP_EP_INIT_FLAG_MEM_TYPE : Nat := 2 ^ 0
def UCP_EP_CREATE_AM_LANE : Nat := 2 ^ 1

def UCP_EP_PARAM_FIELD_ERR_HANDLING_MODE : Nat := 2 ^ 0
def UCP_EP_PARAM_FIELD_SOCK_ADDR : Nat := 2 ^ 1

/-- Modelled from the spec: fixed capacity of the lane-descriptor scratch
    buffer and of the per-role lane arrays (ucp_types.h, not under src). -/
def UCP_MAX_LANES : Nat := 8

/-- Modelled from the spec: sentinel lane index meaning no lane; the C value
    is the all-ones ucp_lane_index_t, distinct from every valid index. -/
def UCP_NULL_LANE : Nat := 255

/-- Modelled from the spec: budget of distinct memory domains per operation
    (ucp_types.h, not under src). -/
def UCP_MAX_OP_MDS : Nat := 4

/-- Modelled from the spec: an all-ones 64-bit mask, the value the C code
    passes as (-1) for a bitmap that allows everything. -/
def UCS_MASK64 : Nat := 2 ^ 64 - 1

/-- Source ucs_test_all_flags: all required flags are present in value. -/
def testAllFlags (value required : Nat) : Bool :=
  value &&& required == required

/-- Clearing one bit of a bitmap, the C expression map &= ~UCS_BIT(i). -/
def clearBit (m i : Nat) : Nat :=
  if m.testBit i then m ^^^ (1 <<< i) else m

/-! Data model: transport resources, remote address entries, criteria. -/

/-- Per-width atomic operation flag sets (op = non-fetching, fop = fetching). -/
structure AtomicFlags where
  op32 : Nat
  op64 : Nat
  fop32 : Nat
  fop64 : Nat
deriving DecidableEq, Inhabited

/-- Interface attribute record shared between the local view
    (uct_iface_attr_t) and the packed remote view (ucp_address_iface_attr_t).
    latGrowth and maxBcopy are only meaningful on the local side. -/
structure IfaceAttr where
  capFlags : Nat
  overhead : ℚ
  bandwidth : ℚ
  priority : Nat
  latOvh : ℚ
  latGrowth : ℚ
  atomic : AtomicFlags
  maxBcopy : ℚ
deriving DecidableEq, Inhabited

/-- Device type of a local transport resource. -/
inductive DevType where
  | self
  | shm
  | net
deriving DecidableEq, Inhabited

/-- Local transport resource: the per-resource view the selector reads
    through context->tl_rscs, the worker iface attributes and the MD
    attributes, plus the externally supplied p2p predicate value. -/
structure TlResource where
  mdIndex : Nat
  devIndex : Nat
  devType : DevType
  flagAux : Bool
  mdFlags : Nat
  regOverhead : ℚ
  regGrowth : ℚ
  needRkey : Bool
  tlNameUgni : Bool
  iface : IfaceAttr
  isP2p : Bool
deriving DecidableEq, Inhabited

/-- Remote address entry (ucp_address_entry_t). -/
structure AddressEntry where
  mdIndex : Nat
  devIndex : Nat
  mdFlags : Nat
  iface : IfaceAttr
deriving DecidableEq, Inhabited

/-- Error handling mode of the endpoint parameters. -/
inductive ErrMode where
  | modeNone
  | peer
deriving DecidableEq, Inhabited

/-- Endpoint tuning parameters (the fields the selector reads). -/
structure EpParams where
  fieldMask : Nat
  errMode : ErrMode
deriving DecidableEq, Inhabited

/-- Scoring function selector: the six score functions are enumerated so the
    criteria record stays a first-order value. -/
inductive ScoreFunc where
  | rma
  | amo
  | am
  | rmaBw
  | amBw
  | aux
deriving DecidableEq, Inhabited

/-- Selection criteria (ucp_wireup_criteria_t without the diagnostic title). -/
structure Criteria where
  localMdFlags : Nat
  remoteMdFlags : Nat
  localIfaceFlags : Nat
  remoteIfaceFlags : Nat
  localAtomicFlags : AtomicFlags
  remoteAtomicFlags : AtomicFlags
  calcScore : ScoreFunc
  tlRscFlagAux : Bool
deriving DecidableEq, Inhabited

/-- Immutable selector input: everything ucp_wireup_select_lanes reads from
    the endpoint, worker, context and the unpacked remote address. -/
structure Input where
  tlRscs : List TlResource
  tlBitmap : Nat
  estNumEps : ℚ
  features : Nat
  maxEagerLanes : Nat
  maxRndvLanes : Nat
  memTypeAccessTls : List Nat
  atomicTls : Nat
  atomicReqFlags : AtomicFlags
  reachable : Nat → Nat → Bool
  params : EpParams
  addressList : List AddressEntry
  keyErrMode : ErrMode

def Input.rsc (inp : Input) (i : Nat) : TlResource :=
  inp.tlRscs.getD i default

def Input.addr (inp : Input) (i : Nat) : AddressEntry :=
  inp.addressList.getD i default

def Input.addressCount (inp : Input) : Nat :=
  inp.addressList.length

/-! Scoring model (section 4.1 of the spec; the score functions of
    select.c).  ucp_tl_iface_bandwidth is an external accessor and is
    modelled by the bandwidth field itself. -/

/-- Source ucp_wireup_tl_iface_latency. -/
def tlIfaceLatency (inp : Input) (l : IfaceAttr) (r : IfaceAttr) : ℚ :=
  max l.latOvh r.latOvh + l.latGrowth * inp.estNumEps

def UCP_WIREUP_RMA_BW_TEST_MSG_SIZE : ℚ := 262144

/-- Source ucp_wireup_rma_score_func. -/
def rmaScoreFunc (inp : Input) (r : TlResource) (ae : AddressEntry) : ℚ :=
  (1 / 1000) / (tlIfaceLatency inp r.iface ae.iface + r.iface.overhead +
    4096 / min r.iface.bandwidth ae.iface.bandwidth)

/-- Source ucp_wireup_amo_score_func. -/
def amoScoreFunc (inp : Input) (r : TlResource) (ae : AddressEntry) : ℚ :=
  (1 / 1000) / (tlIfaceLatency inp r.iface ae.iface + r.iface.overhead)

/-- Source ucp_wireup_am_score_func. -/
def amScoreFunc (inp : Input) (r : TlResource) (ae : AddressEntry) : ℚ :=
  (1 / 1000) / (tlIfaceLatency inp r.iface ae.iface + r.iface.overhead +
    ae.iface.overhead)

/-- Source ucp_wireup_rma_bw_score_func. -/
def rmaBwScoreFunc (inp : Input) (r : TlResource) (ae : AddressEntry) : ℚ :=
  1 / (UCP_WIREUP_RMA_BW_TEST_MSG_SIZE /
        min r.iface.bandwidth ae.iface.bandwidth +
      tlIfaceLatency inp r.iface ae.iface + r.iface.overhead +
      r.regOverhead + UCP_WIREUP_RMA_BW_TEST_MSG_SIZE * r.regGrowth)

/-- Source ucp_wireup_am_bw_score_func. -/
def amBwScoreFunc (inp : Input) (r : TlResource) (ae : AddressEntry) : ℚ :=
  let size : ℚ := r.iface.maxBcopy
  let time : ℚ := size / min r.iface.bandwidth ae.iface.bandwidth +
    r.iface.overhead + ae.iface.overhead +
    tlIfaceLatency inp r.iface ae.iface
  size / time * (1 / 100000)

/-- Source ucp_wireup_aux_score_func (same formula as the AM score). -/
def auxScoreFunc (inp : Input) (r : TlResource) (ae : AddressEntry) : ℚ :=
  (1 / 1000) / (tlIfaceLatency inp r.iface ae.iface + r.iface.overhead +
    ae.iface.overhead)

def calcScore (f : ScoreFunc) (inp : Input) (r : TlResource)
    (ae : AddressEntry) : ℚ :=
  match f with
  | .rma => rmaScoreFunc inp r ae
  | .amo => amoScoreFunc inp r ae
  | .am => amScoreFunc inp r ae
  | .rmaBw => rmaBwScoreFunc inp r ae
  | .amBw => amBwScoreFunc inp r ae
  | .aux => auxScoreFunc inp r ae

/-- Modelled from the spec: ucp_calc_epsilon (ucp core, not under src).
    Two scores are equal when their difference is below this relative
    epsilon, epsilon times the maximum of their magnitudes and one. -/
def calcEpsilon (a b : ℚ) : ℚ :=
  (1 / 1000000) * max (max |a| |b|) 1

/-- Source ucp_wireup_score_cmp: sign of the difference, zero within the
    relative epsilon. -/
def scoreCmp (score1 score2 : ℚ) : Int :=
  if |score1 - score2| < calcEpsilon score1 score2 then 0
  else if score1 - score2 > 0 then 1 else if score1 - score2 < 0 then -1 else 0

/-! Criteria evaluator (ucp_wireup_select_transport).  The remote-filter
    phase and the nested local/remote scan of the source are modelled as a
    filtered candidate list traversed in the source iteration order
    (ascending resource index, then ascending address index); the running
    best is the same fold the C loop performs. -/

/-- Section status codes the selector can surface (ucs_status_t subset).
    errUnsupported and errInvalidParam exist at this layer only as
    diagnostic text respectively caller-side checks; keeping them in the
    type lets the theorems state that the evaluator never returns them. -/
inductive Status where
  | ok
  | errUnreachable
  | errUnsupported
  | errInvalidParam
deriving DecidableEq, Inhabited

/-- Result record of one transport selection (ucp_wireup_select_info_t). -/
structure SelectInfo where
  rscIndex : Nat
  addrIndex : Nat
  score : ℚ
deriving DecidableEq, Inhabited

/-- Remote-filter phase of ucp_wireup_select_transport: device bitmap,
    MD bitmap, MD flags, interface flags and the four per-width atomic
    flag sets, in source order. -/
def remoteAddrOk (cr : Criteria) (remoteMdMap remoteDevBitmap : Nat)
    (ae : AddressEntry) : Bool :=
  remoteDevBitmap.testBit ae.devIndex &&
  remoteMdMap.testBit ae.mdIndex &&
  testAllFlags ae.mdFlags cr.remoteMdFlags &&
  testAllFlags ae.iface.capFlags cr.remoteIfaceFlags &&
  testAllFlags ae.iface.atomic.op32 cr.remoteAtomicFlags.op32 &&
  testAllFlags ae.iface.atomic.op64 cr.remoteAtomicFlags.op64 &&
  testAllFlags ae.iface.atomic.fop32 cr.remoteAtomicFlags.fop32 &&
  testAllFlags ae.iface.atomic.fop64 cr.remoteAtomicFlags.fop64

/-- Local checks of the scan phase: the auxiliary-resource opt-in, MD
    flags, interface flags and atomic flags, then the supplied transport
    and local device bitmaps, in source order. -/
def localRscOk (cr : Criteria) (tlBitmap localDevBitmap : Nat) (i : Nat)
    (r : TlResource) : Bool :=
  !(r.flagAux && !cr.tlRscFlagAux) &&
  testAllFlags r.mdFlags cr.localMdFlags &&
  testAllFlags r.iface.capFlags cr.localIfaceFlags &&
  testAllFlags r.iface.atomic.op32 cr.localAtomicFlags.op32 &&
  testAllFlags r.iface.atomic.op64 cr.localAtomicFlags.op64 &&
  testAllFlags r.iface.atomic.fop32 cr.localAtomicFlags.fop32 &&
  testAllFlags r.iface.atomic.fop64 cr.localAtomicFlags.fop64 &&
  tlBitmap.testBit i &&
  localDevBitmap.testBit r.devIndex

/-- Candidate produced by the nested scan: local resource, address, score
    and the priority sum used to break score ties. -/
structure Cand where
  rscIndex : Nat
  addrIndex : Nat
  score : ℚ
  prioritySum : Nat
deriving DecidableEq, Inhabited

/-- Candidate pairs of the nested scan, in source iteration order: the
    outer loop walks the set bits of context->tl_bitmap ascending, the
    inner loop the address list ascending, keeping pairs that pass both
    phases and the reachability predicate. -/
def candidates (inp : Input) (cr : Criteria)
    (tlBitmap remoteMdMap localDevBitmap remoteDevBitmap : Nat) :
    List Cand :=
  ((List.range inp.tlRscs.length).filter fun i =>
      inp.tlBitmap.testBit i &&
      localRscOk cr tlBitmap localDevBitmap i (inp.rsc i)).flatMap fun i =>
    ((List.range inp.addressCount).filter fun a =>
        remoteAddrOk cr remoteMdMap remoteDevBitmap (inp.addr a) &&
        inp.reachable i a).map fun a =>
      { rscIndex := i
        addrIndex := a
        score := calcScore cr.calcScore inp (inp.rsc i) (inp.addr a)
        prioritySum := (inp.rsc i).iface.priority + (inp.addr a).iface.priority }

/-- Running best of the scan (found, best_rsc_index, best_dst_addr_index,
    best_score, best_score_priority). -/
structure BestState where
  found : Bool
  rscIndex : Nat
  addrIndex : Nat
  score : ℚ
  prioritySum : Nat
deriving DecidableEq, Inhabited

def initialBest : BestState :=
  { found := false, rscIndex := 0, addrIndex := 0, score := 0, prioritySum := 0 }

/-- One step of the running-best update, the comparison of the source: take
    the candidate when nothing was found yet, when its score beats the best
    score, or when the scores tie and its priority is higher. -/
def betterStep (s : BestState) (c : Cand) : BestState :=
  if !s.found || scoreCmp c.score s.score > 0 ||
      (scoreCmp c.score s.score == 0 && decide (c.prioritySum > s.prioritySum)) then
    { found := true, rscIndex := c.rscIndex, addrIndex := c.addrIndex,
      score := c.score, prioritySum := c.prioritySum }
  else s

/-- Source ucp_wireup_select_transport.  On failure the select-info output
    keeps the zero-initialized best fields, as the C code writes them
    unconditionally. -/
def selectTransport (inp : Input) (cr : Criteria)
    (tlBitmap remoteMdMap localDevBitmap remoteDevBitmap : Nat)
    (_showError : Bool) : Status × SelectInfo :=
  let best := (candidates inp cr tlBitmap remoteMdMap localDevBitmap
      remoteDevBitmap).foldl betterStep initialBest
  if best.found then
    (.ok, { rscIndex := best.rscIndex, addrIndex := best.addrIndex,
            score := best.score })
  else
    (.errUnreachable, { rscIndex := 0, addrIndex := 0, score := 0 })

/-! Lane table (section 4.3; ucp_wireup_lane_desc_t and
    ucp_wireup_add_lane_desc). -/

/-- Lane usage bits. -/
def UCP_WIREUP_LANE_USAGE_AM : Nat := 2 ^ 0
def UCP_WIREUP_LANE_USAGE_AM_BW : Nat := 2 ^ 1
def UCP_WIREUP_LANE_USAGE_RMA : Nat := 2 ^ 2
def UCP_WIREUP_LANE_USAGE_RMA_BW : Nat := 2 ^ 3
def UCP_WIREUP_LANE_USAGE_AMO : Nat := 2 ^ 4
def UCP_WIREUP_LANE_USAGE_TAG : Nat := 2 ^ 5

/-- Lane descriptor (ucp_wireup_lane_desc_t). -/
structure LaneDesc where
  rscIndex : Nat
  addrIndex : Nat
  proxyLane : Nat
  dstMdIndex : Nat
  usage : Nat
  amBwScore : ℚ
  rmaScore : ℚ
  rmaBwScore : ℚ
  amoScore : ℚ
deriving DecidableEq, Inhabited

/-- One append/merge request to the lane table. -/
structure LaneOp where
  info : SelectInfo
  dstMdIndex : Nat
  usage : Nat
  isProxy : Bool
deriving DecidableEq, Inhabited

/-- Lane descriptor and op select the same transport resources (the pair
    comparison of the reuse scan). -/
def laneMatches (op : LaneOp) (d : LaneDesc) : Bool :=
  d.rscIndex == op.info.rscIndex && d.addrIndex == op.info.addrIndex

/-- Tail of ucp_wireup_add_lane_desc (out_update_score): a per-role score
    field is written exactly when the matching role bit is in the usage
    being added. -/
def updateScores (op : LaneOp) (d : LaneDesc) : LaneDesc :=
  let d := if op.usage &&& UCP_WIREUP_LANE_USAGE_AM_BW != 0 then
    { d with amBwScore := op.info.score } else d
  let d := if op.usage &&& UCP_WIREUP_LANE_USAGE_RMA != 0 then
    { d with rmaScore := op.info.score } else d
  let d := if op.usage &&& UCP_WIREUP_LANE_USAGE_RMA_BW != 0 then
    { d with rmaBwScore := op.info.score } else d
  let d := if op.usage &&& UCP_WIREUP_LANE_USAGE_AMO != 0 then
    { d with amoScore := op.info.score } else d
  d

/-- Freshly appended lane descriptor (out_add_lane), scores zeroed then
    updated per the usage bits. -/
def newLane (op : LaneOp) (proxyLane : Nat) : LaneDesc :=
  updateScores op
    { rscIndex := op.info.rscIndex, addrIndex := op.info.addrIndex,
      proxyLane := proxyLane, dstMdIndex := op.dstMdIndex,
      usage := op.usage, amBwScore := 0, rmaScore := 0, rmaBwScore := 0,
      amoScore := 0 }

/-- Merge into an existing non-proxy lane with the same pair: OR the usage
    bits and update the per-role scores. -/
def mergeLane (op : LaneOp) (d : LaneDesc) : LaneDesc :=
  updateScores op { d with usage := d.usage ||| op.usage }

/-- Index of the first lane with the same pair whose proxy_lane is the null
    lane; this is the lane at which the reuse scan of the source stops
    (branch one when the op is a proxy, the merge branch otherwise). -/
def firstFreeMatch (op : LaneOp) : List LaneDesc → Nat → Option Nat
  | [], _ => none
  | d :: rest, k =>
    if laneMatches op d && d.proxyLane == UCP_NULL_LANE then some k
    else firstFreeMatch op rest (k + 1)

/-- Repoint pass of the reuse scan: every lane before the stop position
    that has the same pair and is a self-proxy is repointed at the index n
    of the lane about to be appended (the source repoints them one by one
    while scanning; this only happens for non-proxy ops). -/
def repointUpTo (op : LaneOp) (n stop : Nat) (lanes : List LaneDesc) :
    List LaneDesc :=
  lanes.mapIdx fun i d =>
    if i < stop && laneMatches op d && d.proxyLane == i then
      { d with proxyLane := n }
    else d

/-- Source ucp_wireup_add_lane_desc.  The scan stops at the first lane with
    the same pair and a null proxy_lane: a proxy op is appended pointing at
    it, a non-proxy op merges into it.  Without such a lane, a non-proxy op
    repoints every matching self-proxy at the new index and is appended
    with a null proxy_lane, while a proxy op is appended as a self-proxy. -/
def addLaneDesc (lanes : List LaneDesc) (op : LaneOp) : List LaneDesc :=
  let n := lanes.length
  match firstFreeMatch op lanes 0 with
  | some k =>
    if op.isProxy then
      lanes ++ [newLane op k]
    else
      (repointUpTo op n k lanes).set k (mergeLane op (lanes.getD k default))
  | none =>
    if op.isProxy then
      lanes ++ [newLane op n]
    else
      repointUpTo op n n lanes ++ [newLane op UCP_NULL_LANE]

/-- Fold of a sequence of lane-table append/merge operations starting from
    the empty table, the way the selection passes build the table. -/
def runLaneOps (ops : List LaneOp) : List LaneDesc :=
  ops.foldl addLaneDesc []

/-- Structural invariant of the lane table.  link: a proxy lane points at
    itself or at a non-proxy lane with the same pair.  uniqFree: at most
    one non-proxy lane per pair.  selfFree: a self-proxy never coexists
    with a non-proxy lane of its pair. -/
structure LaneInv (lanes : List LaneDesc) : Prop where
  link : ∀ (i : Nat) (d : LaneDesc), lanes[i]? = some d →
    d.proxyLane ≠ UCP_NULL_LANE →
    d.proxyLane = i ∨ ∃ e : LaneDesc, lanes[d.proxyLane]? = some e ∧
      e.rscIndex = d.rscIndex ∧ e.addrIndex = d.addrIndex ∧
      e.proxyLane = UCP_NULL_LANE
  uniqFree : ∀ (i j : Nat) (di dj : LaneDesc), i ≠ j →
    lanes[i]? = some di → lanes[j]? = some dj →
    di.rscIndex = dj.rscIndex → di.addrIndex = dj.addrIndex →
    di.proxyLane = UCP_NULL_LANE → dj.proxyLane = UCP_NULL_LANE → False
  selfFree : ∀ (i j : Nat) (di dj : LaneDesc),
    lanes[i]? = some di → lanes[j]? = some dj →
    di.rscIndex = dj.rscIndex → di.addrIndex = dj.addrIndex →
    di.proxyLane = i → dj.proxyLane = UCP_NULL_LANE → False

/-- Condition of the always-enabled remote-MD assertion in the reuse scan
    of ucp_wireup_add_lane_desc: every lane with the same pair as the
    incoming op already records the same remote MD index. -/
def mdAssertOk (lanes : List LaneDesc) (op : LaneOp) : Prop :=
  ∀ d ∈ lanes, laneMatches op d = true → d.dstMdIndex = op.dstMdIndex

/-! Selection context and shared pass helpers. -/

/-- Mutable selection context (ucp_wireup_select_ctx_t); the number of
    lanes is the length of the descriptor list. -/
structure SelectCtx where
  epInitFlags : Nat
  laneDescs : List LaneDesc
  allowAm : Bool
  amInfo : SelectInfo
deriving Inhabited

def addLaneCtx (ctx : SelectCtx) (info : SelectInfo) (dstMdIndex : Nat)
    (usage : Nat) (isProxy : Bool) : SelectCtx :=
  { ctx with
      laneDescs := addLaneDesc ctx.laneDescs
        (LaneOp.mk info dstMdIndex usage isProxy) }

/-- Source ucp_wireup_ep_params_is_err_mode_peer. -/
def epParamsIsErrModePeer (params : EpParams) : Bool :=
  params.fieldMask &&& UCP_EP_PARAM_FIELD_ERR_HANDLING_MODE != 0 &&
  params.errMode == ErrMode.peer

/-- Source ucp_wireup_fill_ep_params_criteria: peer error handling demands
    the local peer-failure capability. -/
def fillEpParamsCriteria (cr : Criteria) (params : EpParams) : Criteria :=
  if epParamsIsErrModePeer params then
    { cr with localIfaceFlags :=
        cr.localIfaceFlags ||| UCT_IFACE_FLAG_ERRHANDLE_PEER_FAILURE }
  else cr

/-- Source ucp_wireup_fill_aux_criteria. -/
def fillAuxCriteria (params : EpParams) : Criteria :=
  fillEpParamsCriteria
    { localMdFlags := 0
      remoteMdFlags := 0
      localIfaceFlags := UCT_IFACE_FLAG_CONNECT_TO_IFACE |||
        UCT_IFACE_FLAG_AM_BCOPY ||| UCT_IFACE_FLAG_PENDING
      remoteIfaceFlags := UCT_IFACE_FLAG_CONNECT_TO_IFACE |||
        UCT_IFACE_FLAG_AM_BCOPY ||| UCT_IFACE_FLAG_CB_ASYNC
      localAtomicFlags := default
      remoteAtomicFlags := default
      calcScore := .aux
      tlRscFlagAux := true } params

/-- Source ucp_wireup_allow_am_emulation_layer: no emulation for
    memory-type endpoints nor under peer error handling. -/
def allowAmEmulationLayer (params : EpParams) (epInitFlags : Nat) : Bool :=
  !(epInitFlags &&& UCP_EP_INIT_FLAG_MEM_TYPE != 0) &&
  !epParamsIsErrModePeer params

/-- Source ucp_wireup_unset_tl_by_md: clear from the transport bitmap every
    resource whose MD equals the MD of the given resource. -/
def unsetTlByMd (inp : Input) (tlBitmap : Nat) (rscIndex : Nat) : Nat :=
  let mdIndex := (inp.rsc rscIndex).mdIndex
  (List.range inp.tlRscs.length).foldl
    (fun acc i =>
      if inp.tlBitmap.testBit i && (inp.rsc i).mdIndex == mdIndex then
        clearBit acc i
      else acc)
    tlBitmap

/-- Source ucp_wireup_is_rsc_self_or_shm. -/
def isRscSelfOrShm (inp : Input) (rscIndex : Nat) : Bool :=
  (inp.rsc rscIndex).devType == DevType.shm ||
  (inp.rsc rscIndex).devType == DevType.self

/-- Source ucp_wireup_is_lane_proxy: the local resource is not p2p and the
    remote interface advertises only the signaled receive event. -/
def isLaneProxy (inp : Input) (rscIndex : Nat) (remoteCapFlags : Nat) : Bool :=
  !(inp.rsc rscIndex).isP2p &&
  remoteCapFlags &&& UCP_WORKER_UCT_RECV_EVENT_CAP_FLAGS ==
    UCT_IFACE_FLAG_EVENT_RECV_SIG

/-- Population count of a bitmap (ucs_popcount). -/
def popCount (n : Nat) : Nat :=
  if n = 0 then 0 else n % 2 + popCount (n / 2)
decreasing_by exact Nat.div_lt_self (Nat.pos_of_ne_zero (by assumption)) one_lt_two

/-! RMA and AMO passes (section 4.4.1, 4.4.2 and the two-phase multi-lane
    loop of section 4.4.5; ucp_wireup_add_memaccess_lanes). -/

/-- Loop of ucp_wireup_add_memaccess_lanes that keeps selecting transports
    reaching allocated remote memory while their score strictly beats the
    registered-memory score.  Each admitted lane removes its remote MD from
    the MD map and every local transport sharing its local MD from the
    transport bitmap.  The fuel stands for the C while-loop; one unit per
    iteration, and the address count bounds the possible iterations. -/
def memaccessLoop (inp : Input) (cr : Criteria) (usage : Nat) (regScore : ℚ) :
    Nat → Nat → Nat → SelectCtx → SelectCtx
  | 0, _, _, ctx => ctx
  | fuel + 1, remoteMdMap, tlBitmap, ctx =>
    if inp.addressCount = 0 then ctx
    else
      match selectTransport inp cr tlBitmap remoteMdMap UCS_MASK64 UCS_MASK64
          false with
      | (.ok, info) =>
        if scoreCmp info.score regScore ≤ 0 then ctx
        else
          let dstMdIndex := (inp.addr info.addrIndex).mdIndex
          let ctx := addLaneCtx ctx info dstMdIndex usage false
          memaccessLoop inp cr usage regScore fuel
            (clearBit remoteMdMap dstMdIndex)
            (unsetTlByMd inp tlBitmap info.rscIndex) ctx
      | (_, _) => ctx

/-- Criteria of the registered-memory phase: remote MD must support
    registration on top of the base criteria. -/
def regCriteria (cr : Criteria) : Criteria :=
  { cr with remoteMdFlags := UCT_MD_FLAG_REG ||| cr.remoteMdFlags }

/-- Criteria of the allocated-memory phase. -/
def allocCriteria (cr : Criteria) : Criteria :=
  { cr with remoteMdFlags := UCT_MD_FLAG_ALLOC ||| cr.remoteMdFlags }

/-- Source ucp_wireup_add_memaccess_lanes: registered-memory selection,
    then the allocated-memory loop; on failure of the first selection the
    pass falls back to emulation over active messages when allowed,
    otherwise it propagates the selection status. -/
def addMemaccessLanes (inp : Input) (cr : Criteria) (tlBitmap usage : Nat)
    (ctx : SelectCtx) : Status × SelectCtx :=
  let showError := !ctx.allowAm
  match selectTransport inp (regCriteria cr) tlBitmap UCS_MASK64 UCS_MASK64
      UCS_MASK64 showError with
  | (.ok, info) =>
    let dstMdIndex := (inp.addr info.addrIndex).mdIndex
    let regScore := info.score
    let ctx := addLaneCtx ctx info dstMdIndex usage false
    let remoteMdMap := clearBit UCS_MASK64 dstMdIndex
    let tlBitmap := unsetTlByMd inp tlBitmap info.rscIndex
    (.ok, memaccessLoop inp (allocCriteria cr) usage regScore
      inp.addressCount remoteMdMap tlBitmap ctx)
  | (status, _) =>
    if ctx.allowAm then
      (.ok, { ctx with epInitFlags := ctx.epInitFlags ||| UCP_EP_CREATE_AM_LANE })
    else
      (status, ctx)

/-- Source ucp_wireup_add_rma_lanes. -/
def addRmaLanes (inp : Input) (ctx : SelectCtx) : Status × SelectCtx :=
  if !(inp.features &&& UCP_FEATURE_RMA != 0) &&
      !(ctx.epInitFlags &&& UCP_EP_INIT_FLAG_MEM_TYPE != 0) then
    (.ok, ctx)
  else
    let cr : Criteria :=
      if ctx.epInitFlags &&& UCP_EP_INIT_FLAG_MEM_TYPE != 0 then
        { localMdFlags := 0, remoteMdFlags := 0
          localIfaceFlags := UCT_IFACE_FLAG_PUT_SHORT
          remoteIfaceFlags := UCT_IFACE_FLAG_PUT_SHORT
          localAtomicFlags := default, remoteAtomicFlags := default
          calcScore := .rma, tlRscFlagAux := false }
      else
        { localMdFlags := 0, remoteMdFlags := 0
          localIfaceFlags := UCT_IFACE_FLAG_PUT_SHORT |||
            UCT_IFACE_FLAG_PUT_BCOPY ||| UCT_IFACE_FLAG_GET_BCOPY |||
            UCT_IFACE_FLAG_PENDING
          remoteIfaceFlags := UCT_IFACE_FLAG_PUT_SHORT |||
            UCT_IFACE_FLAG_PUT_BCOPY ||| UCT_IFACE_FLAG_GET_BCOPY
          localAtomicFlags := default, remoteAtomicFlags := default
          calcScore := .rma, tlRscFlagAux := false }
    addMemaccessLanes inp (fillEpParamsCriteria cr inp.params) UCS_MASK64
      UCP_WIREUP_LANE_USAGE_RMA ctx

/-- Source ucp_wireup_add_amo_lanes.  The required atomic flags come from
    the context (ucp_context_uct_atomic_iface_flags, an external helper
    modelled as the atomicReqFlags input); the transport bitmap is the
    atomic-designated resources plus every non-p2p resource. -/
def addAmoLanes (inp : Input) (ctx : SelectCtx) : Status × SelectCtx :=
  if !(inp.features &&& (UCP_FEATURE_AMO32 ||| UCP_FEATURE_AMO64) != 0) ||
      ctx.epInitFlags &&& UCP_EP_INIT_FLAG_MEM_TYPE != 0 then
    (.ok, ctx)
  else
    let cr : Criteria :=
      { localMdFlags := 0, remoteMdFlags := 0
        localIfaceFlags := UCT_IFACE_FLAG_PENDING
        remoteIfaceFlags := 0
        localAtomicFlags := inp.atomicReqFlags
        remoteAtomicFlags := inp.atomicReqFlags
        calcScore := .amo, tlRscFlagAux := false }
    let tlBitmap := (List.range inp.tlRscs.length).foldl
      (fun acc i => if !(inp.rsc i).isP2p then acc ||| (1 <<< i) else acc)
      inp.atomicTls
    addMemaccessLanes inp (fillEpParamsCriteria cr inp.params) tlBitmap
      UCP_WIREUP_LANE_USAGE_AMO ctx

/-! AM pass (section 4.4.3; ucp_wireup_add_am_lane). -/

/-- Source ucp_wireup_is_am_required: active messages are needed for the
    wireup configuration, for sockaddr endpoints, when any messaging
    feature is requested on a non-memory-type endpoint, or when an already
    selected lane runs on a p2p transport. -/
def isAmRequired (inp : Input) (ctx : SelectCtx) : Bool :=
  (ctx.epInitFlags &&& UCP_EP_CREATE_AM_LANE != 0) ||
  (inp.params.fieldMask &&& UCP_EP_PARAM_FIELD_SOCK_ADDR != 0) ||
  (!(ctx.epInitFlags &&& UCP_EP_INIT_FLAG_MEM_TYPE != 0) &&
    inp.features &&& (UCP_FEATURE_TAG ||| UCP_FEATURE_STREAM |||
      UCP_FEATURE_AM) != 0) ||
  ctx.laneDescs.any fun d => (inp.rsc d.rscIndex).isP2p

/-- Source ucp_wireup_add_am_lane.  The selection result is stored in the
    context as am_info even on failure (the C code writes the select-info
    output unconditionally); failure of this pass is fatal. -/
def addAmLane (inp : Input) (ctx : SelectCtx) : Status × SelectCtx :=
  if !isAmRequired inp ctx then (.ok, ctx)
  else
    let cr : Criteria :=
      { localMdFlags := 0, remoteMdFlags := 0
        localIfaceFlags := UCT_IFACE_FLAG_AM_BCOPY
        remoteIfaceFlags := UCT_IFACE_FLAG_AM_BCOPY ||| UCT_IFACE_FLAG_CB_SYNC
        localAtomicFlags := default, remoteAtomicFlags := default
        calcScore := .am, tlRscFlagAux := false }
    let cr := fillEpParamsCriteria cr inp.params
    let cr :=
      if testAllFlags inp.features (UCP_FEATURE_TAG ||| UCP_FEATURE_WAKEUP) then
        { cr with localIfaceFlags :=
            cr.localIfaceFlags ||| UCP_WORKER_UCT_UNSIG_EVENT_CAP_FLAGS }
      else cr
    match selectTransport inp cr UCS_MASK64 UCS_MASK64 UCS_MASK64 UCS_MASK64
        true with
    | (.ok, info) =>
      let ctx := { ctx with amInfo := info }
      let dstMdIndex := (inp.addr info.addrIndex).mdIndex
      let remoteCapFlags := (inp.addr info.addrIndex).iface.capFlags
      let isProxy := isLaneProxy inp info.rscIndex remoteCapFlags
      (.ok, addLaneCtx ctx info dstMdIndex UCP_WIREUP_LANE_USAGE_AM isProxy)
    | (status, info) =>
      (status, { ctx with amInfo := info })

/-! High-bandwidth multi-lane loop (section 4.4.5 for the BW roles;
    ucp_wireup_add_bw_lanes). -/

/-- Loop of ucp_wireup_add_bw_lanes.  The fuel counts the remaining lanes
    the role may add (num_lanes < max_lanes); the MD budget check and the
    self-or-shm cutoff mirror the source. -/
def bwLanesLoop (inp : Input) (cr : Criteria) (usage : Nat)
    (allowProxy : Bool) (tlBitmap : Nat) :
    Nat → Nat → Nat → Nat → SelectCtx → SelectCtx
  | 0, _, _, _, ctx => ctx
  | fuel + 1, mdMap, localDevBitmap, remoteDevBitmap, ctx =>
    if !(popCount mdMap < UCP_MAX_OP_MDS) then ctx
    else
      match selectTransport inp cr tlBitmap UCS_MASK64 localDevBitmap
          remoteDevBitmap false with
      | (.ok, info) =>
        let remoteCapFlags := (inp.addr info.addrIndex).iface.capFlags
        let isProxy := allowProxy && isLaneProxy inp info.rscIndex remoteCapFlags
        let dstMdIndex := (inp.addr info.addrIndex).mdIndex
        let ctx := addLaneCtx ctx info dstMdIndex usage isProxy
        let mdMap := mdMap ||| (1 <<< (inp.rsc info.rscIndex).mdIndex)
        let localDevBitmap :=
          clearBit localDevBitmap (inp.rsc info.rscIndex).devIndex
        let remoteDevBitmap :=
          clearBit remoteDevBitmap (inp.addr info.addrIndex).devIndex
        if isRscSelfOrShm inp info.rscIndex then ctx
        else bwLanesLoop inp cr usage allowProxy tlBitmap fuel mdMap
          localDevBitmap remoteDevBitmap ctx
      | (_, _) => ctx

/-! AM-BW pass (section 4.4.7; ucp_wireup_add_am_bw_lanes). -/

/-- Source ucp_wireup_add_am_bw_lanes: seeded from the already selected AM
    lane, then up to max_eager_lanes minus one further lanes. -/
def addAmBwLanes (inp : Input) (ctx : SelectCtx) : Status × SelectCtx :=
  if !(inp.features &&& UCP_FEATURE_TAG != 0) ||
      ctx.epInitFlags &&& UCP_EP_INIT_FLAG_MEM_TYPE != 0 ||
      inp.maxEagerLanes < 2 then
    (.ok, ctx)
  else
    let cr : Criteria :=
      { localMdFlags := 0, remoteMdFlags := 0
        localIfaceFlags := UCT_IFACE_FLAG_AM_BCOPY
        remoteIfaceFlags := UCT_IFACE_FLAG_AM_BCOPY ||| UCT_IFACE_FLAG_CB_SYNC
        localAtomicFlags := default, remoteAtomicFlags := default
        calcScore := .amBw, tlRscFlagAux := false }
    let cr := fillEpParamsCriteria cr inp.params
    let cr :=
      if testAllFlags inp.features (UCP_FEATURE_TAG ||| UCP_FEATURE_WAKEUP) then
        { cr with localIfaceFlags :=
            cr.localIfaceFlags ||| UCP_WORKER_UCT_UNSIG_EVENT_CAP_FLAGS }
      else cr
    let maxLanes := inp.maxEagerLanes - 1
    match ctx.laneDescs.find? (fun d => d.usage &&& UCP_WIREUP_LANE_USAGE_AM != 0) with
    | some d =>
      if isRscSelfOrShm inp d.rscIndex then (.ok, ctx)
      else
        let mdMap := 0 ||| (1 <<< (inp.rsc d.rscIndex).mdIndex)
        let localDevBitmap := clearBit UCS_MASK64 (inp.rsc d.rscIndex).devIndex
        let remoteDevBitmap := clearBit UCS_MASK64 (inp.addr d.addrIndex).devIndex
        (.ok, bwLanesLoop inp cr UCP_WIREUP_LANE_USAGE_AM_BW true UCS_MASK64
          maxLanes mdMap localDevBitmap remoteDevBitmap ctx)
    | none =>
      (.ok, bwLanesLoop inp cr UCP_WIREUP_LANE_USAGE_AM_BW true UCS_MASK64
        maxLanes 0 UCS_MASK64 UCS_MASK64 ctx)

/-! RMA-BW pass (section 4.4.4; ucp_wireup_add_rma_bw_lanes). -/

/-- Source ucp_wireup_add_rma_bw_lanes: once per memory type with access
    transports, registered-memory MD flags when driven by the TAG feature. -/
def addRmaBwLanes (inp : Input) (ctx : SelectCtx) : Status × SelectCtx :=
  let memType := ctx.epInitFlags &&& UCP_EP_INIT_FLAG_MEM_TYPE != 0
  if !memType && !(inp.features &&& UCP_FEATURE_TAG != 0) then (.ok, ctx)
  else
    let mdFlags := if memType then 0 else UCT_MD_FLAG_REG
    let cr : Criteria :=
      { localMdFlags := mdFlags, remoteMdFlags := mdFlags
        localIfaceFlags := UCT_IFACE_FLAG_GET_ZCOPY |||
          UCT_IFACE_FLAG_PUT_ZCOPY ||| UCT_IFACE_FLAG_PENDING
        remoteIfaceFlags := UCT_IFACE_FLAG_GET_ZCOPY |||
          UCT_IFACE_FLAG_PUT_ZCOPY
        localAtomicFlags := default, remoteAtomicFlags := default
        calcScore := .rmaBw, tlRscFlagAux := false }
    let cr := fillEpParamsCriteria cr inp.params
    let cr :=
      if testAllFlags inp.features (UCP_FEATURE_TAG ||| UCP_FEATURE_WAKEUP) then
        { cr with localIfaceFlags :=
            cr.localIfaceFlags ||| UCP_WORKER_UCT_UNSIG_EVENT_CAP_FLAGS }
      else cr
    let ctx := inp.memTypeAccessTls.foldl
      (fun ctx tls =>
        if tls = 0 then ctx
        else bwLanesLoop inp cr UCP_WIREUP_LANE_USAGE_RMA_BW false tls
          inp.maxRndvLanes 0 UCS_MASK64 UCS_MASK64 ctx)
      ctx
    (.ok, ctx)

/-! TAG pass (section 4.4.6; ucp_wireup_add_tag_lane). -/

/-- Criteria of the TAG pass: registered memory on both sides for posting
    tags to hardware, eager-bcopy and rendezvous-zcopy tag interfaces with
    zero-copy get and pending, scored by the end-to-end-latency function,
    plus the unsignaled-event capability under the WAKEUP feature. -/
def tagCriteria (inp : Input) : Criteria :=
  let cr : Criteria :=
    { localMdFlags := UCT_MD_FLAG_REG, remoteMdFlags := UCT_MD_FLAG_REG
      localIfaceFlags := UCT_IFACE_FLAG_TAG_EAGER_BCOPY |||
        UCT_IFACE_FLAG_TAG_RNDV_ZCOPY ||| UCT_IFACE_FLAG_GET_ZCOPY |||
        UCT_IFACE_FLAG_PENDING
      remoteIfaceFlags := UCT_IFACE_FLAG_TAG_EAGER_BCOPY |||
        UCT_IFACE_FLAG_TAG_RNDV_ZCOPY ||| UCT_IFACE_FLAG_GET_ZCOPY |||
        UCT_IFACE_FLAG_PENDING
      localAtomicFlags := default, remoteAtomicFlags := default
      calcScore := .am, tlRscFlagAux := false }
  if testAllFlags inp.features UCP_FEATURE_WAKEUP then
    { cr with localIfaceFlags :=
        cr.localIfaceFlags ||| UCP_WORKER_UCT_UNSIG_EVENT_CAP_FLAGS }
  else cr

/-- Source ucp_wireup_add_tag_lane: runs only with the TAG feature under
    error-handling mode NONE; the offload lane is dropped when its score
    compares below the AM lane score. -/
def addTagLane (inp : Input) (ctx : SelectCtx) (errMode : ErrMode) :
    Status × SelectCtx :=
  if !(inp.features &&& UCP_FEATURE_TAG != 0) || errMode != ErrMode.modeNone then
    (.ok, ctx)
  else
    match selectTransport inp (tagCriteria inp) UCS_MASK64 UCS_MASK64
        UCS_MASK64 UCS_MASK64 false with
    | (.ok, info) =>
      if scoreCmp info.score ctx.amInfo.score < 0 then (.ok, ctx)
      else
        let remoteCapFlags := (inp.addr info.addrIndex).iface.capFlags
        let isProxy := isLaneProxy inp info.rscIndex remoteCapFlags
        let dstMdIndex := (inp.addr info.addrIndex).mdIndex
        (.ok, addLaneCtx ctx info dstMdIndex UCP_WIREUP_LANE_USAGE_TAG isProxy)
    | (_, _) => (.ok, ctx)

/-! Finalizer (section 4.5; ucp_wireup_select_wireup_msg_lane and
    ucp_wireup_construct_lanes). -/

/-- Per-lane slice of the endpoint configuration key. -/
structure KeyLane where
  rscIndex : Nat
  proxyLane : Nat
  dstMdIndex : Nat
deriving DecidableEq, Inhabited

/-- Endpoint configuration key (the fields the selector populates). -/
structure ConfigKey where
  numLanes : Nat
  lanes : List KeyLane
  amLane : Nat
  tagLane : Nat
  amBwLanes : List Nat
  rmaLanes : List Nat
  rmaBwLanes : List Nat
  amoLanes : List Nat
  wireupLane : Nat
  rmaBwMdMap : Nat
deriving DecidableEq, Inhabited

/-- Scan of ucp_wireup_select_wireup_msg_lane: the first lane whose local
    and remote interface satisfy the auxiliary criteria wins; otherwise the
    last lane seen on a p2p transport; otherwise the null lane. -/
def wireupMsgScan (inp : Input) (cr : Criteria) :
    List LaneDesc → Nat → Nat → Nat
  | [], _, p2pLane => p2pLane
  | d :: rest, k, p2pLane =>
    if testAllFlags (inp.rsc d.rscIndex).iface.capFlags cr.localIfaceFlags &&
        testAllFlags (inp.addr d.addrIndex).iface.capFlags
          cr.remoteIfaceFlags then
      k
    else
      wireupMsgScan inp cr rest (k + 1)
        (if (inp.rsc d.rscIndex).isP2p then k else p2pLane)

/-- Source ucp_wireup_select_wireup_msg_lane. -/
def selectWireupMsgLane (inp : Input) (lanes : List LaneDesc) : Nat :=
  wireupMsgScan inp (fillAuxCriteria inp.params) lanes 0 UCP_NULL_LANE

/-- Per-role score of a lane index slot, the lookup of the qsort comparator
    UCP_WIREUP_COMPARE_SCORE: a null slot scores zero. -/
def slotScore (descs : List LaneDesc) (f : LaneDesc → ℚ) (l : Nat) : ℚ :=
  if l == UCP_NULL_LANE then 0 else f (descs.getD l default)

/-- Ordering of two per-role slots: the first scores at least the second.
    A sort by this relation is sorted from highest score to lowest, the
    order the qsort comparator of the source requests. -/
def slotGe (descs : List LaneDesc) (f : LaneDesc → ℚ) (a b : Nat) : Prop :=
  slotScore descs f b ≤ slotScore descs f a

instance (descs : List LaneDesc) (f : LaneDesc → ℚ) :
    DecidableRel (slotGe descs f) := fun a b =>
  inferInstanceAs (Decidable (slotScore descs f b ≤ slotScore descs f a))

/-- Descending sort of a per-role lane array (ucs_qsort_r with a
    score-comparing callback; sorted from highest score to lowest; the C
    qsort leaves the tie order unspecified, so any comparator-respecting
    sort is a faithful model). -/
def sortLanesDesc (descs : List LaneDesc) (f : LaneDesc → ℚ)
    (l : List Nat) : List Nat :=
  l.insertionSort (slotGe descs f)

/-- One iteration of the per-lane filling loop of
    ucp_wireup_construct_lanes: record the designated AM and TAG lanes and
    enter the lane into the per-role arrays its usage carries (the AM-BW
    slot is shifted by one, slot zero being reserved for the AM lane). -/
def fillKeyStep (descs : List LaneDesc) (key : ConfigKey) (lane : Nat) :
    ConfigKey :=
  let d := descs.getD lane default
  let key := if d.usage &&& UCP_WIREUP_LANE_USAGE_AM != 0 then
    { key with amLane := lane } else key
  let key := if d.usage &&& UCP_WIREUP_LANE_USAGE_AM_BW != 0 &&
      decide (lane < UCP_MAX_LANES - 1) then
    { key with amBwLanes := key.amBwLanes.set (lane + 1) lane } else key
  let key := if d.usage &&& UCP_WIREUP_LANE_USAGE_RMA != 0 then
    { key with rmaLanes := key.rmaLanes.set lane lane } else key
  let key := if d.usage &&& UCP_WIREUP_LANE_USAGE_RMA_BW != 0 then
    { key with rmaBwLanes := key.rmaBwLanes.set lane lane } else key
  let key := if d.usage &&& UCP_WIREUP_LANE_USAGE_AMO != 0 then
    { key with amoLanes := key.amoLanes.set lane lane } else key
  let key := if d.usage &&& UCP_WIREUP_LANE_USAGE_TAG != 0 then
    { key with tagLane := lane } else key
  key

/-- Per-lane filling loop of ucp_wireup_construct_lanes, applied to the
    pre-initialized key (designated lanes null, role arrays filled with the
    null lane). -/
def fillKeyLoop (descs : List LaneDesc) : ConfigKey :=
  let key0 : ConfigKey :=
    { numLanes := descs.length
      lanes := descs.map fun d =>
        { rscIndex := d.rscIndex, proxyLane := d.proxyLane,
          dstMdIndex := d.dstMdIndex }
      amLane := UCP_NULL_LANE
      tagLane := UCP_NULL_LANE
      amBwLanes := List.replicate UCP_MAX_LANES UCP_NULL_LANE
      rmaLanes := List.replicate UCP_MAX_LANES UCP_NULL_LANE
      rmaBwLanes := List.replicate UCP_MAX_LANES UCP_NULL_LANE
      amoLanes := List.replicate UCP_MAX_LANES UCP_NULL_LANE
      wireupLane := UCP_NULL_LANE
      rmaBwMdMap := 0 }
  (List.range descs.length).foldl (fillKeyStep descs) key0

/-- Remote-MD bitmap walk at the end of ucp_wireup_construct_lanes: take
    the remote MDs of the fastest rma_bw lanes while they need a remote key
    and the MD budget is not exceeded, skipping the ugni workaround. -/
def buildRmaBwMdMap (inp : Input) (descs : List LaneDesc) :
    List Nat → Nat → Nat
  | [], m => m
  | l :: rest, m =>
    if l == UCP_NULL_LANE then m
    else if !(popCount m < UCP_MAX_OP_MDS) then m
    else
      let r := inp.rsc (descs.getD l default).rscIndex
      let m := if r.needRkey && !r.tlNameUgni then m ||| (1 <<< r.mdIndex)
        else m
      buildRmaBwMdMap inp descs rest m

/-- Source ucp_wireup_construct_lanes: fill the key, sort the per-role
    arrays by descending role score (slot zero of the AM-BW array is
    reserved for the AM lane), elect the wireup lane, and build the
    remote-MD bitmap for bulk RMA.  The second output is the per-lane
    address-index array. -/
def constructLanes (inp : Input) (ctx : SelectCtx) : ConfigKey × List Nat :=
  let descs := ctx.laneDescs
  let key := fillKeyLoop descs
  let key := { key with
    amBwLanes := key.amBwLanes.take 1 ++
      sortLanesDesc descs (fun d => d.amBwScore) (key.amBwLanes.drop 1)
    rmaLanes := sortLanesDesc descs (fun d => d.rmaScore) key.rmaLanes
    rmaBwLanes := sortLanesDesc descs (fun d => d.rmaBwScore) key.rmaBwLanes
    amoLanes := sortLanesDesc descs (fun d => d.amoScore) key.amoLanes }
  let key := { key with wireupLane := selectWireupMsgLane inp descs }
  let key := { key with
    rmaBwMdMap := buildRmaBwMdMap inp descs key.rmaBwLanes key.rmaBwMdMap }
  let key := { key with amBwLanes := key.amBwLanes.set 0 key.amLane }
  (key, descs.map fun d => d.addrIndex)

/-! Top level (ucp_wireup_search_lanes and ucp_wireup_select_lanes). -/

/-- Source ucp_wireup_select_ctx_init.  The am_info field is left
    uninitialized by the C code and modelled as zero. -/
def selectCtxInit (inp : Input) (epInitFlags : Nat) : SelectCtx :=
  { epInitFlags := epInitFlags
    laneDescs := []
    allowAm := allowAmEmulationLayer inp.params epInitFlags
    amInfo := default }

/-- Source ucp_wireup_search_lanes: the six passes in their fixed order,
    each aborting the search on error, then the no-lanes check. -/
def searchLanes (inp : Input) (ctx : SelectCtx) : Status × SelectCtx :=
  match addRmaLanes inp ctx with
  | (.ok, ctx) =>
    match addAmoLanes inp ctx with
    | (.ok, ctx) =>
      match addAmLane inp ctx with
      | (.ok, ctx) =>
        match addRmaBwLanes inp ctx with
        | (.ok, ctx) =>
          match addTagLane inp ctx inp.keyErrMode with
          | (.ok, ctx) =>
            match addAmBwLanes inp ctx with
            | (.ok, ctx) =>
              if ctx.laneDescs.length = 0 then (.errUnreachable, ctx)
              else (.ok, ctx)
            | r => r
          | r => r
        | r => r
      | r => r
    | r => r
  | r => r

/-- Source ucp_wireup_select_lanes: on success the configuration key and
    the address-index array are produced; on failure nothing is written. -/
def selectLanes (inp : Input) (epInitFlags : Nat) :
    Status × Option (ConfigKey × List Nat) :=
  let ctx := selectCtxInit inp epInitFlags
  match searchLanes inp ctx with
  | (.ok, ctx) => (.ok, some (constructLanes inp ctx))
  | (status, _) => (status, none)

/-! Concrete selector inputs used by witnesses and counterexamples. -/

/-- Interface capability word of a transport able to serve the RMA pass and
    the AM pass. -/
def rmaAmCaps : Nat :=
  UCT_IFACE_FLAG_PUT_SHORT ||| UCT_IFACE_FLAG_PUT_BCOPY |||
  UCT_IFACE_FLAG_GET_BCOPY ||| UCT_IFACE_FLAG_PENDING |||
  UCT_IFACE_FLAG_AM_BCOPY

def exIface : IfaceAttr :=
  { capFlags := rmaAmCaps, overhead := 1, bandwidth := 1000, priority := 0,
    latOvh := 0, latGrowth := 0, atomic := default, maxBcopy := 100 }

def exRsc : TlResource :=
  { mdIndex := 0, devIndex := 0, devType := .net, flagAux := false,
    mdFlags := UCT_MD_FLAG_REG, regOverhead := 0, regGrowth := 0,
    needRkey := false, tlNameUgni := false, iface := exIface, isP2p := false }

/-- Remote mirror of exRsc whose interface only wakes on signaled receive
    events, so an AM lane through it must be a proxy. -/
def exAddrSig : AddressEntry :=
  { mdIndex := 0, devIndex := 0, mdFlags := UCT_MD_FLAG_REG,
    iface := { exIface with capFlags := rmaAmCaps ||| UCT_IFACE_FLAG_CB_SYNC |||
      UCT_IFACE_FLAG_EVENT_RECV_SIG } }

/-- Input of the proxy-sharing scenario: one RMA-and-AM capable resource,
    one signaled-only remote entry, RMA feature, and an endpoint created
    with the create-AM-lane bit so that the AM pass runs. -/
def proxyPairInput : Input :=
  { tlRscs := [exRsc], tlBitmap := 1, estNumEps := 1,
    features := UCP_FEATURE_RMA, maxEagerLanes := 1, maxRndvLanes := 1,
    memTypeAccessTls := [], atomicTls := 0, atomicReqFlags := default,
    reachable := fun _ _ => true,
    params := { fieldMask := 0, errMode := .modeNone },
    addressList := [exAddrSig], keyErrMode := .modeNone }

/-- Per-resource interface overhead of the overflow scenario: the sole
    registered-memory pair scores worst, every allocated-memory pair beats
    it, each by a distinct margin. -/
def overflowOvh (i : Nat) : ℚ :=
  [10, 9, 8, 7, 6, 5, 4, 3, 2].getD i 1

def overflowRsc (i : Nat) : TlResource :=
  { mdIndex := i, devIndex := i, devType := .net, flagAux := false,
    mdFlags := UCT_MD_FLAG_REG, regOverhead := 0, regGrowth := 0,
    needRkey := false, tlNameUgni := false,
    iface := { exIface with overhead := overflowOvh i }, isP2p := false }

def overflowAddr (i : Nat) : AddressEntry :=
  { mdIndex := i, devIndex := i,
    mdFlags := if i = 0 then UCT_MD_FLAG_REG else UCT_MD_FLAG_ALLOC,
    iface := exIface }

/-- Input of the lane-overflow scenario: nine resources on nine distinct
    local MDs, reaching nine remote entries on nine distinct remote MDs,
    where the single REG entry scores below all eight ALLOC entries, so
    the RMA pass admits nine lanes. -/
def overflowInput : Input :=
  { tlRscs := (List.range 9).map overflowRsc, tlBitmap := 2 ^ 9 - 1,
    estNumEps := 1, features := UCP_FEATURE_RMA, maxEagerLanes := 1,
    maxRndvLanes := 1, memTypeAccessTls := [], atomicTls := 0,
    atomicReqFlags := default, reachable := fun i a => i == a,
    params := { fieldMask := 0, errMode := .modeNone },
    addressList := (List.range 9).map overflowAddr, keyErrMode := .modeNone }

def exIfaceAm : IfaceAttr :=
  { capFlags := UCT_IFACE_FLAG_AM_BCOPY ||| UCT_IFACE_FLAG_CB_SYNC |||
      UCT_IFACE_FLAG_EVENT_RECV,
    overhead := 1, bandwidth := 1000, priority := 0,
    latOvh := 0, latGrowth := 0, atomic := default, maxBcopy := 100 }

def amBwTieRsc (i : Nat) : TlResource :=
  { mdIndex := i, devIndex := i, devType := .net, flagAux := false,
    mdFlags := 0, regOverhead := 0, regGrowth := 0,
    needRkey := false, tlNameUgni := false, iface := exIfaceAm, isP2p := false }

def amBwTieAddr (i : Nat) : AddressEntry :=
  { mdIndex := i, devIndex := i, mdFlags := 0, iface := exIfaceAm }

/-- Input of the equal-score scenario: three AM-capable rails with
    identical attributes on distinct devices and MDs, TAG feature, up to
    three eager lanes; the two AM-BW lanes tie in score. -/
def amBwTieInput : Input :=
  { tlRscs := (List.range 3).map amBwTieRsc, tlBitmap := 7, estNumEps := 1,
    features := UCP_FEATURE_TAG, maxEagerLanes := 3, maxRndvLanes := 1,
    memTypeAccessTls := [], atomicTls := 0, atomicReqFlags := default,
    reachable := fun _ _ => true,
    params := { fieldMask := 0, errMode := .modeNone },
    addressList := (List.range 3).map amBwTieAddr, keyErrMode := .modeNone }

/-- Concrete append/merge operations: a non-proxy RMA lane and an AM proxy
    selecting the same pair. -/
def exOpRma : LaneOp :=
  { info := { rscIndex := 0, addrIndex := 0, score := 1 }, dstMdIndex := 0,
    usage := UCP_WIREUP_LANE_USAGE_RMA, isProxy := false }

def exOpAmProxy : LaneOp :=
  { info := { rscIndex := 0, addrIndex := 0, score := 1 }, dstMdIndex := 0,
    usage := UCP_WIREUP_LANE_USAGE_AM, isProxy := true }

def exOps : List LaneOp := [exOpRma, exOpAmProxy]

/-- The proxy shim lane the second operation of exOps appends. -/
def exProxyDesc : LaneDesc := newLane exOpAmProxy 0

/-- RMA criteria record (the non-memory-type criteria of
    ucp_wireup_add_rma_lanes under default endpoint parameters), used to
    instantiate the memory-access pass theorems. -/
def exRmaCriteria : Criteria :=
  { localMdFlags := 0, remoteMdFlags := 0
    localIfaceFlags := UCT_IFACE_FLAG_PUT_SHORT |||
      UCT_IFACE_FLAG_PUT_BCOPY ||| UCT_IFACE_FLAG_GET_BCOPY |||
      UCT_IFACE_FLAG_PENDING
    remoteIfaceFlags := UCT_IFACE_FLAG_PUT_SHORT |||
      UCT_IFACE_FLAG_PUT_BCOPY ||| UCT_IFACE_FLAG_GET_BCOPY
    localAtomicFlags := default, remoteAtomicFlags := default
    calcScore := .rma, tlRscFlagAux := false }

/-- Context produced by the search passes on the three-rail input. -/
def amBwTieCtx : SelectCtx :=
  (searchLanes amBwTieInput (selectCtxInit amBwTieInput 0)).2

/-- Result of the registered-memory selection on the proxy-pair input
    (resource 0, address 0, the RMA score of the single rail). -/
def proxyRegInfo : SelectInfo := ⟨0, 0, 1/5096⟩

/-- Best-state built from a candidate. -/
def mkBest (c : Cand) : BestState :=
  { found := true, rscIndex := c.rscIndex, addrIndex := c.addrIndex,
    score := c.score, prioritySum := c.prioritySum }

/-- Lane additions of a memory-access pass for a list of selections, each
    with the remote MD of its address entry, non-proxy. -/
def memaccessOpFold (inp : Input) (usage : Nat) (ctx : SelectCtx)
    (infos : List SelectInfo) : SelectCtx :=
  infos.foldl
    (fun c i => addLaneCtx c i (inp.addr i.addrIndex).mdIndex usage false) ctx

/-- Pair and proxy fields of two lane descriptors agree. -/
def FieldEq (d e : LaneDesc) : Prop :=
  d.rscIndex = e.rscIndex ∧ d.addrIndex = e.addrIndex ∧
  d.proxyLane = e.proxyLane

end UcpWireup

namespace UcpWireup

theorem betterStep_eq_or (s : BestState) (c : Cand) :
    betterStep s c = s ∨ betterStep s c = mkBest c := by
  unfold betterStep mkBest
  split
  · right; rfl
  · left; rfl

theorem betterStep_found (s : BestState) (c : Cand) (h : s.found = true) :
    (betterStep s c).found = true := by
  unfold betterStep
  split
  · rfl
  · exact h

theorem betterStep_of_not_found (s : BestState) (c : Cand)
    (h : s.found = false) : betterStep s c = mkBest c := by
  unfold betterStep mkBest
  rw [if_pos]
  simp [h]

theorem foldl_betterStep_found (l : List Cand) :
    ∀ s : BestState, s.found = true → (l.foldl betterStep s).found = true := by
  induction l with
  | nil => intro s h; exact h
  | cons c t ih =>
    intro s h
    exact ih (betterStep s c) (betterStep_found s c h)

theorem foldl_betterStep_eq_or (l : List Cand) :
    ∀ s : BestState, l.foldl betterStep s = s ∨
      ∃ c ∈ l, l.foldl betterStep s = mkBest c := by
  induction l with
  | nil => intro s; left; rfl
  | cons c t ih =>
    intro s
    rcases betterStep_eq_or s c with h | h
    · rcases ih (betterStep s c) with h2 | ⟨d, hd, h2⟩
      · left; rw [List.foldl_cons, h2, h]
      · right; exact ⟨d, List.mem_cons_of_mem c hd, by rw [List.foldl_cons, h2]⟩
    · rcases ih (betterStep s c) with h2 | ⟨d, hd, h2⟩
      · right; exact ⟨c, List.mem_cons_self c t, by rw [List.foldl_cons, h2, h]⟩
      · right; exact ⟨d, List.mem_cons_of_mem c hd, by rw [List.foldl_cons, h2]⟩

theorem foldl_betterStep_initial_found (l : List Cand) (h : l ≠ []) :
    (l.foldl betterStep initialBest).found = true := by
  match l with
  | [] => exact absurd rfl h
  | c :: t =>
    rw [List.foldl_cons, betterStep_of_not_found initialBest c rfl]
    exact foldl_betterStep_found t (mkBest c) rfl

theorem foldl_betterStep_initial_mem (l : List Cand)
    (h : (l.foldl betterStep initialBest).found = true) :
    ∃ c ∈ l, l.foldl betterStep initialBest = mkBest c := by
  rcases foldl_betterStep_eq_or l initialBest with h2 | h2
  · rw [h2] at h
    exact absurd h (by simp [initialBest])
  · exact h2

/-- Claim C3: the criteria evaluator returns UNREACHABLE exactly when no
    pair survives both the remote-filter phase and the local scan, OK with
    a surviving pair otherwise, and never any other status. -/
theorem c3_select_transport_unreachable_or_ok (inp : Input) (cr : Criteria)
    (tlBitmap remoteMdMap localDevBitmap remoteDevBitmap : Nat)
    (showError : Bool) :
    ((selectTransport inp cr tlBitmap remoteMdMap localDevBitmap
        remoteDevBitmap showError).1 = .ok ∨
      (selectTransport inp cr tlBitmap remoteMdMap localDevBitmap
        remoteDevBitmap showError).1 = .errUnreachable) ∧
    ((selectTransport inp cr tlBitmap remoteMdMap localDevBitmap
        remoteDevBitmap showError).1 = .ok ↔
      candidates inp cr tlBitmap remoteMdMap localDevBitmap
        remoteDevBitmap ≠ []) ∧
    ((selectTransport inp cr tlBitmap remoteMdMap localDevBitmap
        remoteDevBitmap showError).1 = .ok →
      ∃ c ∈ candidates inp cr tlBitmap remoteMdMap localDevBitmap
          remoteDevBitmap,
        (selectTransport inp cr tlBitmap remoteMdMap localDevBitmap
          remoteDevBitmap showError).2 =
          { rscIndex := c.rscIndex, addrIndex := c.addrIndex,
            score := c.score }) := by
  unfold selectTransport
  set l := candidates inp cr tlBitmap remoteMdMap localDevBitmap
    remoteDevBitmap with hl
  by_cases hn : l = []
  · have hf : (l.foldl betterStep initialBest).found = false := by
      rw [hn]; rfl
    refine ⟨?_, ?_, ?_⟩ <;> simp only [hf]
    · right; rfl
    · simp [hn]
    · intro h; exact absurd h (by simp)
  · have hf := foldl_betterStep_initial_found l hn
    rcases foldl_betterStep_initial_mem l hf with ⟨c, hc, heq⟩
    refine ⟨?_, ?_, ?_⟩ <;> simp only [hf]
    · left; rfl
    · simp [hn]
    · intro _
      exact ⟨c, hc, by rw [heq]; rfl⟩

end UcpWireup


namespace UcpWireup

theorem mem_candidates_facts {inp : Input} {cr : Criteria}
    {tlBitmap remoteMdMap localDevBitmap remoteDevBitmap : Nat} {c : Cand}
    (h : c ∈ candidates inp cr tlBitmap remoteMdMap localDevBitmap
      remoteDevBitmap) :
    c.rscIndex < inp.tlRscs.length ∧
    inp.tlBitmap.testBit c.rscIndex = true ∧
    localRscOk cr tlBitmap localDevBitmap c.rscIndex (inp.rsc c.rscIndex) = true ∧
    c.addrIndex < inp.addressCount ∧
    remoteAddrOk cr remoteMdMap remoteDevBitmap (inp.addr c.addrIndex) = true ∧
    inp.reachable c.rscIndex c.addrIndex = true ∧
    c.score = calcScore cr.calcScore inp (inp.rsc c.rscIndex)
      (inp.addr c.addrIndex) := by
  simp only [candidates, List.mem_flatMap, List.mem_filter, List.mem_range,
    List.mem_map, Bool.and_eq_true] at h
  obtain ⟨i, ⟨hi, hbit, hlocal⟩, a, ⟨ha, hrem, hreach⟩, hc⟩ := h
  subst hc
  exact ⟨hi, hbit, hlocal, ha, hrem, hreach, rfl⟩

theorem localRscOk_tlBitmap {cr : Criteria} {tlBitmap localDevBitmap i : Nat}
    {r : TlResource} (h : localRscOk cr tlBitmap localDevBitmap i r = true) :
    tlBitmap.testBit i = true := by
  simp only [localRscOk, Bool.and_eq_true] at h
  exact h.1.2

theorem remoteAddrOk_facts {cr : Criteria} {remoteMdMap remoteDevBitmap : Nat}
    {ae : AddressEntry}
    (h : remoteAddrOk cr remoteMdMap remoteDevBitmap ae = true) :
    remoteMdMap.testBit ae.mdIndex = true ∧
    testAllFlags ae.mdFlags cr.remoteMdFlags = true := by
  simp only [remoteAddrOk, Bool.and_eq_true] at h
  exact ⟨h.1.1.1.1.1.1.2, h.1.1.1.1.1.2⟩

theorem selectTransport_ok_mem {inp : Input} {cr : Criteria}
    {tlBitmap remoteMdMap localDevBitmap remoteDevBitmap : Nat}
    {showError : Bool} {info : SelectInfo}
    (h : selectTransport inp cr tlBitmap remoteMdMap localDevBitmap
      remoteDevBitmap showError = (.ok, info)) :
    ∃ c ∈ candidates inp cr tlBitmap remoteMdMap localDevBitmap
        remoteDevBitmap,
      info = SelectInfo.mk c.rscIndex c.addrIndex c.score := by
  unfold selectTransport at h
  set l := candidates inp cr tlBitmap remoteMdMap localDevBitmap
    remoteDevBitmap with hl
  by_cases hf : (l.foldl betterStep initialBest).found = true
  · rcases foldl_betterStep_initial_mem l hf with ⟨c, hc, heq⟩
    rw [if_pos hf] at h
    refine ⟨c, hc, ?_⟩
    have h2 := congrArg Prod.snd h
    simp only at h2
    rw [← h2, heq]
    rfl
  · rw [if_neg hf] at h
    exact absurd (congrArg Prod.fst h) (by simp)

theorem selectTransport_ok_facts {inp : Input} {cr : Criteria}
    {tlBitmap remoteMdMap localDevBitmap remoteDevBitmap : Nat}
    {showError : Bool} {info : SelectInfo}
    (h : selectTransport inp cr tlBitmap remoteMdMap localDevBitmap
      remoteDevBitmap showError = (.ok, info)) :
    info.rscIndex < inp.tlRscs.length ∧
    inp.tlBitmap.testBit info.rscIndex = true ∧
    tlBitmap.testBit info.rscIndex = true ∧
    info.addrIndex < inp.addressCount ∧
    remoteMdMap.testBit (inp.addr info.addrIndex).mdIndex = true ∧
    testAllFlags (inp.addr info.addrIndex).mdFlags cr.remoteMdFlags = true := by
  rcases selectTransport_ok_mem h with ⟨c, hc, heq⟩
  have hf := mem_candidates_facts hc
  subst heq
  exact ⟨hf.1, hf.2.1, localRscOk_tlBitmap hf.2.2.1, hf.2.2.2.1,
    (remoteAddrOk_facts hf.2.2.2.2.1).1, (remoteAddrOk_facts hf.2.2.2.2.1).2⟩

theorem testBit_clearBit (m i j : Nat) :
    (clearBit m i).testBit j = if j = i then false else m.testBit j := by
  unfold clearBit
  by_cases hmi : m.testBit i = true
  · rw [if_pos hmi, Nat.testBit_xor]
    have h1 : (1 <<< i) = 2 ^ i := by rw [Nat.shiftLeft_eq, one_mul]
    rw [h1, Nat.testBit_two_pow]
    by_cases hij : j = i
    · subst hij
      simp [hmi]
    · have hji : ¬ i = j := fun hh => hij hh.symm
      simp [hij, hji]
  · rw [if_neg hmi]
    by_cases hij : j = i
    · subst hij
      simp [Bool.not_eq_true] at hmi
      simp [hmi]
    · rw [if_neg hij]

theorem testBit_clearBit_imp {m i j : Nat}
    (h : (clearBit m i).testBit j = true) : m.testBit j = true ∧ j ≠ i := by
  rw [testBit_clearBit] at h
  by_cases hij : j = i
  · rw [if_pos hij] at h
    exact absurd h (by simp)
  · rw [if_neg hij] at h
    exact ⟨h, hij⟩

/-- Monotonicity of a fold that only clears bitmap bits: a bit set in the
    result was set in the start value. -/
theorem foldClear_testBit_imp (p : Nat → Bool) :
    ∀ (L : List Nat) (acc j : Nat),
      ((L.foldl (fun acc x => if p x then clearBit acc x else acc)
        acc).testBit j = true) → acc.testBit j = true := by
  intro L
  induction L with
  | nil => intro acc j h; exact h
  | cons x t ih =>
    intro acc j h
    rw [List.foldl_cons] at h
    have h2 := ih _ j h
    by_cases hc : p x = true
    · rw [if_pos hc] at h2
      exact (testBit_clearBit_imp h2).1
    · rw [if_neg hc] at h2
      exact h2

/-- A bit whose index is in the list with a true condition is cleared by
    the fold. -/
theorem foldClear_testBit_clears (p : Nat → Bool) :
    ∀ (L : List Nat) (acc i : Nat), i ∈ L → p i = true →
      ((L.foldl (fun acc x => if p x then clearBit acc x else acc)
        acc).testBit i = false) := by
  intro L
  induction L with
  | nil => intro acc i h; exact absurd h (by simp)
  | cons x t ih =>
    intro acc i hmem hp
    rw [List.foldl_cons]
    rcases List.mem_cons.mp hmem with hx | hx
    · subst hx
      rw [if_pos hp]
      by_cases hfin : ((t.foldl (fun acc x => if p x then clearBit acc x
          else acc) (clearBit acc i)).testBit i = true)
      · have h2 := foldClear_testBit_imp p t (clearBit acc i) i hfin
        rw [testBit_clearBit] at h2
        simp at h2
      · simpa using hfin
    · exact ih _ i hx hp

theorem unsetTlByMd_testBit_imp {inp : Input} {tlBitmap rscIndex j : Nat}
    (h : (unsetTlByMd inp tlBitmap rscIndex).testBit j = true) :
    tlBitmap.testBit j = true := by
  unfold unsetTlByMd at h
  exact foldClear_testBit_imp _ _ _ _ h

theorem unsetTlByMd_clears {inp : Input} {tlBitmap rscIndex i : Nat}
    (hlen : i < inp.tlRscs.length) (hbit : inp.tlBitmap.testBit i = true)
    (hmd : (inp.rsc i).mdIndex = (inp.rsc rscIndex).mdIndex) :
    (unsetTlByMd inp tlBitmap rscIndex).testBit i = false := by
  unfold unsetTlByMd
  refine foldClear_testBit_clears _ _ _ _ (List.mem_range.mpr hlen) ?_
  rw [hbit, hmd]
  simp

end UcpWireup


namespace UcpWireup

/-- Trace of the allocated-memory loop: the context evolves by non-proxy
    lane additions for a list of admitted selections; every admitted
    selection strictly beats the registered-memory score and passed the
    remote MD-flag filter, and the admitted remote MDs and local MDs are
    pairwise distinct. -/
theorem memaccessLoop_trace (inp : Input) (cr : Criteria) (usage : Nat)
    (regScore : ℚ) :
    ∀ (fuel remoteMdMap tlBitmap : Nat) (ctx : SelectCtx),
      ∃ infos : List SelectInfo,
        memaccessLoop inp cr usage regScore fuel remoteMdMap tlBitmap ctx =
          memaccessOpFold inp usage ctx infos ∧
        (∀ i ∈ infos,
          scoreCmp i.score regScore > 0 ∧
          i.addrIndex < inp.addressCount ∧
          testAllFlags (inp.addr i.addrIndex).mdFlags cr.remoteMdFlags = true ∧
          remoteMdMap.testBit (inp.addr i.addrIndex).mdIndex = true ∧
          tlBitmap.testBit i.rscIndex = true ∧
          i.rscIndex < inp.tlRscs.length ∧
          inp.tlBitmap.testBit i.rscIndex = true) ∧
        infos.Pairwise (fun a b =>
          (inp.addr a.addrIndex).mdIndex ≠ (inp.addr b.addrIndex).mdIndex) ∧
        infos.Pairwise (fun a b =>
          (inp.rsc a.rscIndex).mdIndex ≠ (inp.rsc b.rscIndex).mdIndex) := by
  intro fuel
  induction fuel with
  | zero =>
    intro remoteMdMap tlBitmap ctx
    exact ⟨[], rfl, by simp, by simp, by simp⟩
  | succ n ih =>
    intro remoteMdMap tlBitmap ctx
    by_cases hac : inp.addressCount = 0
    · exact ⟨[], by rw [memaccessLoop, if_pos hac]; rfl, by simp, by simp,
        by simp⟩
    · cases hsel : selectTransport inp cr tlBitmap remoteMdMap UCS_MASK64
        UCS_MASK64 false with
      | mk st info =>
        cases st with
        | ok =>
          by_cases hcmp : scoreCmp info.score regScore ≤ 0
          · refine ⟨[], ?_, by simp, by simp, by simp⟩
            rw [memaccessLoop, if_neg hac, hsel]
            simp only [hcmp, if_pos]
            rfl
          · have hfacts := selectTransport_ok_facts hsel
            obtain ⟨hrlen, hrbit, htlb, halen, hmdbit, hmdflags⟩ := hfacts
            obtain ⟨infos, heq, hfa, hpmd, hploc⟩ :=
              ih (clearBit remoteMdMap (inp.addr info.addrIndex).mdIndex)
                (unsetTlByMd inp tlBitmap info.rscIndex)
                (addLaneCtx ctx info (inp.addr info.addrIndex).mdIndex usage
                  false)
            refine ⟨info :: infos, ?_, ?_, ?_, ?_⟩
            · rw [memaccessLoop, if_neg hac, hsel]
              simp only [hcmp, if_neg]
              exact heq
            · intro i hi
              rcases List.mem_cons.mp hi with hh | hh
              · subst hh
                refine ⟨by omega, halen, hmdflags, hmdbit, htlb, hrlen, hrbit⟩
              · obtain ⟨h1, h2, h3, h4, h5, h6, h7⟩ := hfa i hh
                exact ⟨h1, h2, h3, (testBit_clearBit_imp h4).1,
                  unsetTlByMd_testBit_imp h5, h6, h7⟩
            · rw [List.pairwise_cons]
              refine ⟨?_, hpmd⟩
              intro i hi
              have h4 := (hfa i hi).2.2.2.1
              exact fun hEq => (testBit_clearBit_imp h4).2 (by rw [hEq])
            · rw [List.pairwise_cons]
              refine ⟨?_, hploc⟩
              intro i hi
              obtain ⟨_, _, _, _, h5, h6, h7⟩ := hfa i hi
              intro hEq
              have hclr : (unsetTlByMd inp tlBitmap
                  info.rscIndex).testBit i.rscIndex = false :=
                unsetTlByMd_clears h6 h7 hEq.symm
              rw [h5] at hclr
              exact absurd hclr (by simp)
        | errUnreachable =>
          refine ⟨[], ?_, by simp, by simp, by simp⟩
          rw [memaccessLoop, if_neg hac, hsel]
          rfl
        | errUnsupported =>
          refine ⟨[], ?_, by simp, by simp, by simp⟩
          rw [memaccessLoop, if_neg hac, hsel]
          rfl
        | errInvalidParam =>
          refine ⟨[], ?_, by simp, by simp, by simp⟩
          rw [memaccessLoop, if_neg hac, hsel]
          rfl

end UcpWireup

namespace UcpWireup

/-- Claim C4: in the memory-access two-phase loop, the first admitted lane
    comes from the registered-memory selection whose score becomes the
    reference score; every further admitted lane passed the allocated-MD
    filter and strictly beats that score; admitted remote MDs are pairwise
    distinct (each is removed from the MD map) and admitted local MDs are
    pairwise distinct (every transport of an admitted local MD is removed
    from the transport bitmap). -/
theorem c4_memaccess_two_phase (inp : Input) (cr : Criteria)
    (tlBitmap usage : Nat) (ctx : SelectCtx) (info0 : SelectInfo)
    (h : selectTransport inp (regCriteria cr) tlBitmap UCS_MASK64 UCS_MASK64
      UCS_MASK64 (!ctx.allowAm) = (.ok, info0)) :
    ∃ infos : List SelectInfo,
      addMemaccessLanes inp cr tlBitmap usage ctx =
        (.ok, memaccessOpFold inp usage
          (addLaneCtx ctx info0 (inp.addr info0.addrIndex).mdIndex usage
            false) infos) ∧
      testAllFlags (inp.addr info0.addrIndex).mdFlags
        (UCT_MD_FLAG_REG ||| cr.remoteMdFlags) = true ∧
      (∀ i ∈ infos,
        scoreCmp i.score info0.score > 0 ∧
        testAllFlags (inp.addr i.addrIndex).mdFlags
          (UCT_MD_FLAG_ALLOC ||| cr.remoteMdFlags) = true) ∧
      (info0 :: infos).Pairwise (fun a b =>
        (inp.addr a.addrIndex).mdIndex ≠ (inp.addr b.addrIndex).mdIndex) ∧
      (info0 :: infos).Pairwise (fun a b =>
        (inp.rsc a.rscIndex).mdIndex ≠ (inp.rsc b.rscIndex).mdIndex) := by
  have hreg := selectTransport_ok_facts h
  obtain ⟨hrlen, hrbit, htlb, halen, _, hmdflags⟩ := hreg
  obtain ⟨infos, heq, hfa, hpmd, hploc⟩ :=
    memaccessLoop_trace inp (allocCriteria cr) usage info0.score
      inp.addressCount
      (clearBit UCS_MASK64 (inp.addr info0.addrIndex).mdIndex)
      (unsetTlByMd inp tlBitmap info0.rscIndex)
      (addLaneCtx ctx info0 (inp.addr info0.addrIndex).mdIndex usage false)
  refine ⟨infos, ?_, hmdflags, ?_, ?_, ?_⟩
  · simp only [addMemaccessLanes, h]
    rw [heq]
  · intro i hi
    obtain ⟨h1, _, h3, _⟩ := hfa i hi
    exact ⟨h1, h3⟩
  · rw [List.pairwise_cons]
    refine ⟨?_, hpmd⟩
    intro i hi
    have h4 := (hfa i hi).2.2.2.1
    exact fun hEq => (testBit_clearBit_imp h4).2 (by rw [hEq])
  · rw [List.pairwise_cons]
    refine ⟨?_, hploc⟩
    intro i hi
    obtain ⟨_, _, _, _, h5, h6, h7⟩ := hfa i hi
    intro hEq
    have hclr : (unsetTlByMd inp tlBitmap
        info0.rscIndex).testBit i.rscIndex = false :=
      unsetTlByMd_clears h6 h7 hEq.symm
    rw [h5] at hclr
    exact absurd hclr (by simp)

end UcpWireup

namespace UcpWireup

/-- Claim C5: when the registered-memory selection of a memory-access pass
    (RMA or AMO) fails, the pass sets the create-AM-lane bit and returns OK
    if AM emulation is allowed, and otherwise propagates the selection
    status unchanged; the context's AM-emulation switch is exactly the
    allow-emulation predicate (not memory-type and not peer error
    handling) evaluated at context initialization. -/
theorem c5_memaccess_failure_am_fallback (inp : Input) (cr : Criteria)
    (tlBitmap usage : Nat) (ctx : SelectCtx) (st : Status)
    (info : SelectInfo)
    (hsel : selectTransport inp (regCriteria cr) tlBitmap UCS_MASK64
      UCS_MASK64 UCS_MASK64 (!ctx.allowAm) = (st, info))
    (hst : st ≠ .ok) :
    (ctx.allowAm = true →
      addMemaccessLanes inp cr tlBitmap usage ctx =
        (.ok, { ctx with
          epInitFlags := ctx.epInitFlags ||| UCP_EP_CREATE_AM_LANE })) ∧
    (ctx.allowAm = false →
      addMemaccessLanes inp cr tlBitmap usage ctx = (st, ctx)) ∧
    (∀ epInitFlags : Nat, (selectCtxInit inp epInitFlags).allowAm =
      allowAmEmulationLayer inp.params epInitFlags) := by
  refine ⟨?_, ?_, fun _ => rfl⟩
  all_goals intro hAm
  all_goals rw [hAm] at hsel
  all_goals simp only [Bool.not_true, Bool.not_false] at hsel
  all_goals cases st with
    | ok => exact absurd rfl hst
    | errUnreachable => simp [addMemaccessLanes, hsel, hAm]
    | errUnsupported => simp [addMemaccessLanes, hsel, hAm]
    | errInvalidParam => simp [addMemaccessLanes, hsel, hAm]

end UcpWireup

namespace UcpWireup

/-- Claim C6: the TAG pass always returns OK; it leaves the context
    untouched unless the TAG feature is on and the error mode is NONE; and
    in that case it adds (or merges) a TAG-usage lane exactly when the
    selection succeeds with a score not below the AM score, leaving the
    context untouched otherwise. -/
theorem c6_tag_lane_gating (inp : Input) (ctx : SelectCtx)
    (errMode : ErrMode) :
    (addTagLane inp ctx errMode).1 = .ok ∧
    (¬(inp.features &&& UCP_FEATURE_TAG ≠ 0 ∧ errMode = .modeNone) →
      (addTagLane inp ctx errMode).2 = ctx) ∧
    (inp.features &&& UCP_FEATURE_TAG ≠ 0 → errMode = .modeNone →
      ∀ info : SelectInfo,
        selectTransport inp (tagCriteria inp) UCS_MASK64 UCS_MASK64
          UCS_MASK64 UCS_MASK64 false = (.ok, info) →
        ((scoreCmp info.score ctx.amInfo.score < 0 →
          (addTagLane inp ctx errMode).2 = ctx) ∧
        (¬(scoreCmp info.score ctx.amInfo.score < 0) →
          (addTagLane inp ctx errMode).2 =
            addLaneCtx ctx info (inp.addr info.addrIndex).mdIndex
              UCP_WIREUP_LANE_USAGE_TAG
              (isLaneProxy inp info.rscIndex
                (inp.addr info.addrIndex).iface.capFlags)))) ∧
    (inp.features &&& UCP_FEATURE_TAG ≠ 0 → errMode = .modeNone →
      ∀ (st : Status) (info : SelectInfo),
        selectTransport inp (tagCriteria inp) UCS_MASK64 UCS_MASK64
          UCS_MASK64 UCS_MASK64 false = (st, info) → st ≠ .ok →
        (addTagLane inp ctx errMode).2 = ctx) := by
  by_cases htag : inp.features &&& UCP_FEATURE_TAG = 0
  · have hres : addTagLane inp ctx errMode = (.ok, ctx) := by
      rw [addTagLane, if_pos]
      simp [htag]
    exact ⟨by rw [hres], fun _ => by rw [hres],
      fun ht _ _ _ => absurd htag ht, fun ht _ _ _ _ _ => absurd htag ht⟩
  · by_cases herr : errMode = ErrMode.modeNone
    · subst herr
      have hgate : ¬((!(inp.features &&& UCP_FEATURE_TAG != 0) ||
          (ErrMode.modeNone != ErrMode.modeNone)) = true) := by
        simp [htag]
      cases hsel : selectTransport inp (tagCriteria inp) UCS_MASK64
        UCS_MASK64 UCS_MASK64 UCS_MASK64 false with
      | mk st info =>
        cases st with
        | ok =>
          by_cases hcmp : scoreCmp info.score ctx.amInfo.score < 0
          · have hres : addTagLane inp ctx ErrMode.modeNone = (.ok, ctx) := by
              rw [addTagLane, if_neg hgate, hsel]
              simp [hcmp]
            refine ⟨by rw [hres], fun _ => by rw [hres], ?_, ?_⟩
            · intro _ _ info2 hsel2
              have h12 : info = info2 := by
                have := congrArg Prod.snd hsel2
                simpa using this
              subst h12
              exact ⟨fun _ => by rw [hres], fun hn => absurd hcmp hn⟩
            · intro _ _ st2 info2 hsel2 hne
              have h12 : Status.ok = st2 := by
                have := congrArg Prod.fst hsel2
                simpa using this
              exact absurd h12.symm hne
          · have hres : addTagLane inp ctx ErrMode.modeNone =
                (.ok, addLaneCtx ctx info (inp.addr info.addrIndex).mdIndex
                  UCP_WIREUP_LANE_USAGE_TAG
                  (isLaneProxy inp info.rscIndex
                    (inp.addr info.addrIndex).iface.capFlags)) := by
              rw [addTagLane, if_neg hgate, hsel]
              simp [hcmp]
            refine ⟨by rw [hres], ?_, ?_, ?_⟩
            · intro hc
              exact absurd ⟨htag, rfl⟩ hc
            · intro _ _ info2 hsel2
              have h12 : info = info2 := by
                have := congrArg Prod.snd hsel2
                simpa using this
              subst h12
              exact ⟨fun hlt => absurd hlt hcmp, fun _ => by rw [hres]⟩
            · intro _ _ st2 info2 hsel2 hne
              have h12 : Status.ok = st2 := by
                have := congrArg Prod.fst hsel2
                simpa using this
              exact absurd h12.symm hne
        | errUnreachable =>
          have hres : addTagLane inp ctx ErrMode.modeNone = (.ok, ctx) := by
            rw [addTagLane, if_neg hgate, hsel]
          refine ⟨by rw [hres], fun _ => by rw [hres], ?_,
            fun _ _ _ _ _ _ => by rw [hres]⟩
          intro _ _ info2 hsel2
          have h12 := congrArg Prod.fst hsel2
          exact absurd h12 (by simp)
        | errUnsupported =>
          have hres : addTagLane inp ctx ErrMode.modeNone = (.ok, ctx) := by
            rw [addTagLane, if_neg hgate, hsel]
          refine ⟨by rw [hres], fun _ => by rw [hres], ?_,
            fun _ _ _ _ _ _ => by rw [hres]⟩
          intro _ _ info2 hsel2
          have h12 := congrArg Prod.fst hsel2
          exact absurd h12 (by simp)
        | errInvalidParam =>
          have hres : addTagLane inp ctx ErrMode.modeNone = (.ok, ctx) := by
            rw [addTagLane, if_neg hgate, hsel]
          refine ⟨by rw [hres], fun _ => by rw [hres], ?_,
            fun _ _ _ _ _ _ => by rw [hres]⟩
          intro _ _ info2 hsel2
          have h12 := congrArg Prod.fst hsel2
          exact absurd h12 (by simp)
    · have hres : addTagLane inp ctx errMode = (.ok, ctx) := by
        rw [addTagLane, if_pos]
        have hb : (errMode != ErrMode.modeNone) = true := by
          simp [bne_iff_ne, herr]
        simp [hb]
      exact ⟨by rw [hres], fun _ => by rw [hres],
        fun _ he _ _ => absurd he herr, fun _ he _ _ _ _ => absurd he herr⟩

end UcpWireup

namespace UcpWireup

@[simp] theorem updateScores_rscIndex (op : LaneOp) (d : LaneDesc) :
    (updateScores op d).rscIndex = d.rscIndex := by
  unfold updateScores
  split <;> split <;> split <;> split <;> rfl

@[simp] theorem updateScores_addrIndex (op : LaneOp) (d : LaneDesc) :
    (updateScores op d).addrIndex = d.addrIndex := by
  unfold updateScores
  split <;> split <;> split <;> split <;> rfl

@[simp] theorem updateScores_proxyLane (op : LaneOp) (d : LaneDesc) :
    (updateScores op d).proxyLane = d.proxyLane := by
  unfold updateScores
  split <;> split <;> split <;> split <;> rfl

@[simp] theorem updateScores_dstMdIndex (op : LaneOp) (d : LaneDesc) :
    (updateScores op d).dstMdIndex = d.dstMdIndex := by
  unfold updateScores
  split <;> split <;> split <;> split <;> rfl

@[simp] theorem updateScores_usage (op : LaneOp) (d : LaneDesc) :
    (updateScores op d).usage = d.usage := by
  unfold updateScores
  split <;> split <;> split <;> split <;> rfl

@[simp] theorem newLane_rscIndex (op : LaneOp) (p : Nat) :
    (newLane op p).rscIndex = op.info.rscIndex := by
  unfold newLane; simp

@[simp] theorem newLane_addrIndex (op : LaneOp) (p : Nat) :
    (newLane op p).addrIndex = op.info.addrIndex := by
  unfold newLane; simp

@[simp] theorem newLane_proxyLane (op : LaneOp) (p : Nat) :
    (newLane op p).proxyLane = p := by
  unfold newLane; simp

@[simp] theorem newLane_dstMdIndex (op : LaneOp) (p : Nat) :
    (newLane op p).dstMdIndex = op.dstMdIndex := by
  unfold newLane; simp

@[simp] theorem mergeLane_rscIndex (op : LaneOp) (d : LaneDesc) :
    (mergeLane op d).rscIndex = d.rscIndex := by
  unfold mergeLane; simp

@[simp] theorem mergeLane_addrIndex (op : LaneOp) (d : LaneDesc) :
    (mergeLane op d).addrIndex = d.addrIndex := by
  unfold mergeLane; simp

@[simp] theorem mergeLane_proxyLane (op : LaneOp) (d : LaneDesc) :
    (mergeLane op d).proxyLane = d.proxyLane := by
  unfold mergeLane; simp

@[simp] theorem mergeLane_dstMdIndex (op : LaneOp) (d : LaneDesc) :
    (mergeLane op d).dstMdIndex = d.dstMdIndex := by
  unfold mergeLane; simp

theorem laneMatches_iff (op : LaneOp) (d : LaneDesc) :
    laneMatches op d = true ↔
      d.rscIndex = op.info.rscIndex ∧ d.addrIndex = op.info.addrIndex := by
  unfold laneMatches
  simp

theorem firstFreeMatch_some_spec (op : LaneOp) :
    ∀ (l : List LaneDesc) (s j : Nat), firstFreeMatch op l s = some j →
      s ≤ j ∧ ∃ d, l[j - s]? = some d ∧ laneMatches op d = true ∧
        d.proxyLane = UCP_NULL_LANE := by
  intro l
  induction l with
  | nil => intro s j h; exact absurd h (by simp [firstFreeMatch])
  | cons d rest ih =>
    intro s j h
    rw [firstFreeMatch] at h
    by_cases hp : (laneMatches op d && (d.proxyLane == UCP_NULL_LANE)) = true
    · rw [if_pos hp] at h
      obtain ⟨h1, h2⟩ := Bool.and_eq_true_iff.mp hp
      have hj : s = j := by injection h
      subst hj
      exact ⟨le_refl s, d, by simp, h1, by simpa using h2⟩
    · rw [if_neg hp] at h
      obtain ⟨hle, e, he, hm, hn⟩ := ih (s + 1) j h
      refine ⟨by omega, e, ?_, hm, hn⟩
      have : j - s = (j - (s + 1)) + 1 := by omega
      rw [this]
      simpa using he

theorem firstFreeMatch_none_spec (op : LaneOp) :
    ∀ (l : List LaneDesc) (s : Nat), firstFreeMatch op l s = none →
      ∀ d ∈ l, ¬(laneMatches op d = true ∧ d.proxyLane = UCP_NULL_LANE) := by
  intro l
  induction l with
  | nil => intro s h d hd; exact absurd hd (by simp)
  | cons d rest ih =>
    intro s h e he
    rw [firstFreeMatch] at h
    by_cases hp : (laneMatches op d && (d.proxyLane == UCP_NULL_LANE)) = true
    · rw [if_pos hp] at h
      exact absurd h (by simp)
    · rw [if_neg hp] at h
      rcases List.mem_cons.mp he with hx | hx
      · subst hx
        intro ⟨h1, h2⟩
        exact hp (by simp [h1, h2])
      · exact ih (s + 1) h e hx

theorem addLaneDesc_length (lanes : List LaneDesc) (op : LaneOp) :
    lanes.length ≤ (addLaneDesc lanes op).length ∧
    (addLaneDesc lanes op).length ≤ lanes.length + 1 := by
  unfold addLaneDesc
  cases h : firstFreeMatch op lanes 0 with
  | some k =>
    by_cases hp : op.isProxy = true
    · simp [hp]
    · simp [hp, repointUpTo]
  | none =>
    by_cases hp : op.isProxy = true
    · simp [hp]
    · simp [hp, repointUpTo]

end UcpWireup

namespace UcpWireup

theorem append_getElem?_cases {l : List LaneDesc} {v : LaneDesc} {i : Nat}
    {x : LaneDesc} (h : (l ++ [v])[i]? = some x) :
    (i < l.length ∧ l[i]? = some x) ∨ (i = l.length ∧ x = v) := by
  rw [List.getElem?_append] at h
  by_cases hi : i < l.length
  · rw [if_pos hi] at h
    exact Or.inl ⟨hi, h⟩
  · rw [if_neg hi] at h
    cases hm : i - l.length with
    | zero =>
      rw [hm] at h
      have hx : x = v := by simpa using h.symm
      exact Or.inr ⟨by omega, hx⟩
    | succ m =>
      rw [hm] at h
      simp at h

theorem append_getElem?_of_lt {l : List LaneDesc} {v : LaneDesc} {i : Nat}
    (hi : i < l.length) : (l ++ [v])[i]? = l[i]? := by
  rw [List.getElem?_append, if_pos hi]

theorem repointUpTo_getElem? (op : LaneOp) (n stop : Nat)
    (l : List LaneDesc) (i : Nat) :
    (repointUpTo op n stop l)[i]? = (l[i]?).map
      (fun d => if i < stop && laneMatches op d && (d.proxyLane == i) then
        { d with proxyLane := n } else d) := by
  unfold repointUpTo
  rw [List.getElem?_mapIdx]

theorem repointUpTo_eq_self (op : LaneOp) (n stop : Nat)
    (l : List LaneDesc)
    (hc : ∀ (i : Nat) (d : LaneDesc), l[i]? = some d →
      ¬(i < stop ∧ laneMatches op d = true ∧ d.proxyLane = i)) :
    repointUpTo op n stop l = l := by
  apply List.ext_getElem?
  intro i
  rw [repointUpTo_getElem?]
  cases hd : l[i]? with
  | none => rfl
  | some d =>
    have hb : ¬((decide (i < stop) && laneMatches op d &&
        (d.proxyLane == i)) = true) := by
      intro hb
      simp only [Bool.and_eq_true, decide_eq_true_eq, beq_iff_eq] at hb
      exact hc i d hd ⟨hb.1.1, hb.1.2, hb.2⟩
    simp only [Option.map_some']
    rw [if_neg hb]

/-- The lane-table invariant only reads the pair and proxy fields, so it
    transfers along pointwise field agreement. -/
theorem laneInv_of_fieldEq {l1 l2 : List LaneDesc}
    (hfe : ∀ i : Nat, (l1[i]? = none ∧ l2[i]? = none) ∨
      (∃ d1 d2, l1[i]? = some d1 ∧ l2[i]? = some d2 ∧ FieldEq d1 d2))
    (h : LaneInv l1) : LaneInv l2 := by
  have hfwd : ∀ (i : Nat) (d2 : LaneDesc), l2[i]? = some d2 →
      ∃ d1, l1[i]? = some d1 ∧ FieldEq d1 d2 := by
    intro i d2 h2
    rcases hfe i with ⟨_, hn⟩ | ⟨d1, d2x, h1, h2x, hf⟩
    · rw [h2] at hn; exact absurd hn (by simp)
    · rw [h2] at h2x
      injection h2x with h2x
      exact ⟨d1, h1, h2x ▸ hf⟩
  have hbwd : ∀ (i : Nat) (d1 : LaneDesc), l1[i]? = some d1 →
      ∃ d2, l2[i]? = some d2 ∧ FieldEq d1 d2 := by
    intro i d1 h1
    rcases hfe i with ⟨hn, _⟩ | ⟨d1x, d2, h1x, h2, hf⟩
    · rw [h1] at hn; exact absurd hn (by simp)
    · rw [h1] at h1x
      injection h1x with h1x
      exact ⟨d2, h2, h1x ▸ hf⟩
  constructor
  · intro i d2 h2 hnp
    obtain ⟨d1, h1, hf⟩ := hfwd i d2 h2
    rcases h.link i d1 h1 (by rw [hf.2.2]; exact hnp) with hself | ⟨e1, he1, her, hea, hep⟩
    · left; rw [← hf.2.2]; exact hself
    · right
      obtain ⟨e2, he2, hfe2⟩ := hbwd d1.proxyLane e1 he1
      rw [hf.2.2] at he2
      exact ⟨e2, he2, by rw [← hfe2.1, ← hf.1]; exact her,
        by rw [← hfe2.2.1, ← hf.2.1]; exact hea,
        by rw [← hfe2.2.2]; exact hep⟩
  · intro i j di dj hne hdi hdj hr ha hpi hpj
    obtain ⟨ei, hei, hfi⟩ := hfwd i di hdi
    obtain ⟨ej, hej, hfj⟩ := hfwd j dj hdj
    exact h.uniqFree i j ei ej hne hei hej
      (by rw [hfi.1, hfj.1]; exact hr) (by rw [hfi.2.1, hfj.2.1]; exact ha)
      (by rw [hfi.2.2]; exact hpi) (by rw [hfj.2.2]; exact hpj)
  · intro i j di dj hdi hdj hr ha hpi hpj
    obtain ⟨ei, hei, hfi⟩ := hfwd i di hdi
    obtain ⟨ej, hej, hfj⟩ := hfwd j dj hdj
    exact h.selfFree i j ei ej hei hej
      (by rw [hfi.1, hfj.1]; exact hr) (by rw [hfi.2.1, hfj.2.1]; exact ha)
      (by rw [hfi.2.2]; exact hpi) (by rw [hfj.2.2]; exact hpj)

end UcpWireup

namespace UcpWireup

/-- Invariant preservation, branch one of the reuse scan: a proxy op is
    appended pointing at the first non-proxy lane of its pair. -/
theorem laneInv_append_ptr (lanes : List LaneDesc) (op : LaneOp) (k : Nat)
    (dk : LaneDesc) (hlen : lanes.length < UCP_NULL_LANE)
    (hk : lanes[k]? = some dk) (hmk : laneMatches op dk = true)
    (hnk : dk.proxyLane = UCP_NULL_LANE) (h : LaneInv lanes) :
    LaneInv (lanes ++ [newLane op k]) := by
  have hklt : k < lanes.length := (List.getElem?_eq_some.mp hk).1
  have hkNN : k ≠ UCP_NULL_LANE := by omega
  obtain ⟨hmkr, hmka⟩ := (laneMatches_iff op dk).mp hmk
  constructor
  · intro i d hd hnp
    rcases append_getElem?_cases hd with ⟨hi, hold⟩ | ⟨hi, hdv⟩
    · rcases h.link i d hold hnp with hself | ⟨e, he, her, hea, hep⟩
      · exact Or.inl hself
      · have hplen : d.proxyLane < lanes.length := (List.getElem?_eq_some.mp he).1
        exact Or.inr ⟨e, by rw [append_getElem?_of_lt hplen]; exact he,
          her, hea, hep⟩
    · subst hdv
      refine Or.inr ⟨dk, ?_, ?_, ?_, hnk⟩
      · rw [newLane_proxyLane, append_getElem?_of_lt hklt]
        exact hk
      · rw [newLane_rscIndex]
        exact hmkr
      · rw [newLane_addrIndex]
        exact hmka
  · intro i j di dj hne hdi hdj hr ha hpi hpj
    rcases append_getElem?_cases hdi with ⟨hi, holdi⟩ | ⟨hi, hdvi⟩
    · rcases append_getElem?_cases hdj with ⟨hj, holdj⟩ | ⟨hj, hdvj⟩
      · exact h.uniqFree i j di dj hne holdi holdj hr ha hpi hpj
      · subst hdvj
        rw [newLane_proxyLane] at hpj
        exact hkNN hpj
    · subst hdvi
      rw [newLane_proxyLane] at hpi
      exact hkNN hpi
  · intro i j di dj hdi hdj hr ha hpi hpj
    rcases append_getElem?_cases hdj with ⟨hj, holdj⟩ | ⟨hj, hdvj⟩
    · rcases append_getElem?_cases hdi with ⟨hi, holdi⟩ | ⟨hi, hdvi⟩
      · exact h.selfFree i j di dj holdi holdj hr ha hpi hpj
      · subst hdvi
        rw [newLane_proxyLane] at hpi
        omega
    · subst hdvj
      rw [newLane_proxyLane] at hpj
      exact hkNN hpj

/-- Invariant preservation, branch three: a proxy op that finds no
    non-proxy lane of its pair is appended as a self-proxy. -/
theorem laneInv_append_self (lanes : List LaneDesc) (op : LaneOp)
    (hlen : lanes.length < UCP_NULL_LANE)
    (hnone : ∀ d ∈ lanes, ¬(laneMatches op d = true ∧
      d.proxyLane = UCP_NULL_LANE))
    (h : LaneInv lanes) :
    LaneInv (lanes ++ [newLane op lanes.length]) := by
  have hnNN : lanes.length ≠ UCP_NULL_LANE := by omega
  constructor
  · intro i d hd hnp
    rcases append_getElem?_cases hd with ⟨hi, hold⟩ | ⟨hi, hdv⟩
    · rcases h.link i d hold hnp with hself | ⟨e, he, her, hea, hep⟩
      · exact Or.inl hself
      · have hplen : d.proxyLane < lanes.length := (List.getElem?_eq_some.mp he).1
        exact Or.inr ⟨e, by rw [append_getElem?_of_lt hplen]; exact he,
          her, hea, hep⟩
    · subst hdv
      rw [newLane_proxyLane]
      exact Or.inl hi.symm
  · intro i j di dj hne hdi hdj hr ha hpi hpj
    rcases append_getElem?_cases hdi with ⟨hi, holdi⟩ | ⟨hi, hdvi⟩
    · rcases append_getElem?_cases hdj with ⟨hj, holdj⟩ | ⟨hj, hdvj⟩
      · exact h.uniqFree i j di dj hne holdi holdj hr ha hpi hpj
      · subst hdvj
        rw [newLane_proxyLane] at hpj
        exact hnNN hpj
    · subst hdvi
      rw [newLane_proxyLane] at hpi
      exact hnNN hpi
  · intro i j di dj hdi hdj hr ha hpi hpj
    rcases append_getElem?_cases hdj with ⟨hj, holdj⟩ | ⟨hj, hdvj⟩
    · rcases append_getElem?_cases hdi with ⟨hi, holdi⟩ | ⟨hi, hdvi⟩
      · exact h.selfFree i j di dj holdi holdj hr ha hpi hpj
      · subst hdvi
        refine hnone dj (List.getElem?_mem holdj) ⟨?_, hpj⟩
        rw [laneMatches_iff]
        constructor
        · rw [← hr, newLane_rscIndex]
        · rw [← ha, newLane_addrIndex]
    · subst hdvj
      rw [newLane_proxyLane] at hpj
      exact hnNN hpj

end UcpWireup

namespace UcpWireup

/-- Invariant preservation, branch four: a non-proxy op that finds no
    non-proxy lane of its pair repoints every matching self-proxy at the
    new index and is appended with a null proxy link. -/
theorem laneInv_repoint_append (lanes : List LaneDesc) (op : LaneOp)
    (hlen : lanes.length < UCP_NULL_LANE)
    (hnone : ∀ d ∈ lanes, ¬(laneMatches op d = true ∧
      d.proxyLane = UCP_NULL_LANE))
    (h : LaneInv lanes) :
    LaneInv (repointUpTo op lanes.length lanes.length lanes ++
      [newLane op UCP_NULL_LANE]) := by
  set n := lanes.length with hn
  have hRlen : (repointUpTo op n n lanes).length = n := by
    unfold repointUpTo
    rw [List.length_mapIdx]
  have hf : ∀ (i : Nat) (di : LaneDesc), lanes[i]? = some di → i < n →
      (repointUpTo op n n lanes)[i]? = some
        (if laneMatches op di = true ∧ di.proxyLane = i then
          { di with proxyLane := n } else di) := by
    intro i di hdi hi
    rw [repointUpTo_getElem?, hdi]
    simp only [Option.map_some']
    by_cases hc : laneMatches op di = true ∧ di.proxyLane = i
    · rw [if_pos hc]
      have hb : (decide (i < n) && laneMatches op di &&
          (di.proxyLane == i)) = true := by
        simp [hi, hc.1, hc.2]
      rw [if_pos hb]
    · rw [if_neg hc]
      have hb : ¬((decide (i < n) && laneMatches op di &&
          (di.proxyLane == i)) = true) := by
        intro hb
        simp only [Bool.and_eq_true, decide_eq_true_eq, beq_iff_eq] at hb
        exact hc ⟨hb.1.2, hb.2⟩
      rw [if_neg hb]
  have hcases : ∀ (i : Nat) (x : LaneDesc),
      (repointUpTo op n n lanes ++ [newLane op UCP_NULL_LANE])[i]? = some x →
      (∃ di, i < n ∧ lanes[i]? = some di ∧
        x = (if laneMatches op di = true ∧ di.proxyLane = i then
          { di with proxyLane := n } else di)) ∨
      (i = n ∧ x = newLane op UCP_NULL_LANE) := by
    intro i x hx
    rcases append_getElem?_cases hx with ⟨hi, hold⟩ | ⟨hi, hxv⟩
    · rw [hRlen] at hi
      left
      cases hdi : lanes[i]? with
      | none =>
        rw [repointUpTo_getElem?, hdi] at hold
        exact absurd hold (by simp)
      | some di =>
        refine ⟨di, hi, rfl, ?_⟩
        rw [hf i di hdi hi] at hold
        injection hold with hold
        exact hold.symm
    · rw [hRlen] at hi
      exact Or.inr ⟨hi, hxv⟩
  have hat_n : (repointUpTo op n n lanes ++ [newLane op UCP_NULL_LANE])[n]? =
      some (newLane op UCP_NULL_LANE) := by
    rw [List.getElem?_append, if_neg (by rw [hRlen]; omega), hRlen]
    simp
  have hat_lt : ∀ (i : Nat) (di : LaneDesc), i < n → lanes[i]? = some di →
      (repointUpTo op n n lanes ++ [newLane op UCP_NULL_LANE])[i]? = some
        (if laneMatches op di = true ∧ di.proxyLane = i then
          { di with proxyLane := n } else di) := by
    intro i di hi hdi
    rw [append_getElem?_of_lt (by rw [hRlen]; exact hi)]
    exact hf i di hdi hi
  constructor
  · intro i d hd hnp
    rcases hcases i d hd with ⟨di, hi, hdi, hval⟩ | ⟨hi, hval⟩
    · by_cases hc : laneMatches op di = true ∧ di.proxyLane = i
      · rw [if_pos hc] at hval
        have hdp : d.proxyLane = n := by rw [hval]
        refine Or.inr ⟨newLane op UCP_NULL_LANE, ?_, ?_, ?_, ?_⟩
        · rw [hdp]
          exact hat_n
        · rw [newLane_rscIndex, hval]
          exact ((laneMatches_iff op di).mp hc.1).1.symm
        · rw [newLane_addrIndex, hval]
          exact ((laneMatches_iff op di).mp hc.1).2.symm
        · rw [newLane_proxyLane]
      · rw [if_neg hc] at hval
        subst hval
        rcases h.link i d hdi hnp with hself | ⟨e, he, her, hea, hep⟩
        · exact Or.inl hself
        · have hplen : d.proxyLane < n := (List.getElem?_eq_some.mp he).1
          refine Or.inr ⟨e, ?_, her, hea, hep⟩
          rw [hat_lt d.proxyLane e hplen he, if_neg]
          intro hcc
          rw [hep] at hcc
          omega
    · subst hval
      rw [newLane_proxyLane] at hnp
      exact absurd rfl hnp
  · intro i j di' dj' hne hdi hdj hr ha hpi hpj
    rcases hcases i di' hdi with ⟨di, hi, hdio, hvi⟩ | ⟨hi, hvi⟩
    · by_cases hci : laneMatches op di = true ∧ di.proxyLane = i
      · rw [if_pos hci] at hvi
        rw [hvi] at hpi
        simp only at hpi
        omega
      · rw [if_neg hci] at hvi
        subst hvi
        rcases hcases j dj' hdj with ⟨dj, hj, hdjo, hvj⟩ | ⟨hj, hvj⟩
        · by_cases hcj : laneMatches op dj = true ∧ dj.proxyLane = j
          · rw [if_pos hcj] at hvj
            rw [hvj] at hpj
            simp only at hpj
            omega
          · rw [if_neg hcj] at hvj
            subst hvj
            exact h.uniqFree i j di' dj' hne hdio hdjo hr ha hpi hpj
        · subst hvj
          refine hnone di' (List.getElem?_mem hdio) ⟨?_, hpi⟩
          rw [laneMatches_iff]
          refine ⟨?_, ?_⟩
          · rw [hr, newLane_rscIndex]
          · rw [ha, newLane_addrIndex]
    · subst hvi
      rcases hcases j dj' hdj with ⟨dj, hj, hdjo, hvj⟩ | ⟨hj, hvj⟩
      · by_cases hcj : laneMatches op dj = true ∧ dj.proxyLane = j
        · rw [if_pos hcj] at hvj
          rw [hvj] at hpj
          simp only at hpj
          omega
        · rw [if_neg hcj] at hvj
          subst hvj
          refine hnone dj' (List.getElem?_mem hdjo) ⟨?_, hpj⟩
          rw [laneMatches_iff]
          refine ⟨?_, ?_⟩
          · rw [← hr, newLane_rscIndex]
          · rw [← ha, newLane_addrIndex]
      · subst hvj
        exact hne (hi.trans hj.symm)
  · intro i j di' dj' hdi hdj hr ha hpi hpj
    rcases hcases i di' hdi with ⟨di, hi, hdio, hvi⟩ | ⟨hi, hvi⟩
    · by_cases hci : laneMatches op di = true ∧ di.proxyLane = i
      · rw [if_pos hci] at hvi
        rw [hvi] at hpi
        simp only at hpi
        omega
      · rw [if_neg hci] at hvi
        subst hvi
        rcases hcases j dj' hdj with ⟨dj, hj, hdjo, hvj⟩ | ⟨hj, hvj⟩
        · by_cases hcj : laneMatches op dj = true ∧ dj.proxyLane = j
          · rw [if_pos hcj] at hvj
            rw [hvj] at hpj
            simp only at hpj
            omega
          · rw [if_neg hcj] at hvj
            subst hvj
            exact h.selfFree i j di' dj' hdio hdjo hr ha hpi hpj
        · subst hvj
          have hmm : laneMatches op di' = true := by
            rw [laneMatches_iff]
            refine ⟨?_, ?_⟩
            · rw [hr, newLane_rscIndex]
            · rw [ha, newLane_addrIndex]
          exact hci ⟨hmm, hpi⟩
    · subst hvi
      rw [newLane_proxyLane] at hpi
      omega

end UcpWireup

namespace UcpWireup

/-- Invariant preservation for one append/merge operation on a lane table
    shorter than the null-lane sentinel. -/
theorem addLaneDesc_laneInv (lanes : List LaneDesc) (op : LaneOp)
    (hlen : lanes.length < UCP_NULL_LANE) (h : LaneInv lanes) :
    LaneInv (addLaneDesc lanes op) := by
  unfold addLaneDesc
  cases hff : firstFreeMatch op lanes 0 with
  | some k =>
    obtain ⟨-, dk, hk0, hmk, hnk⟩ := firstFreeMatch_some_spec op lanes 0 k hff
    have hk : lanes[k]? = some dk := by simpa using hk0
    show LaneInv (if op.isProxy = true then lanes ++ [newLane op k]
      else (repointUpTo op lanes.length k lanes).set k
        (mergeLane op (lanes.getD k default)))
    by_cases hp : op.isProxy = true
    · rw [if_pos hp]
      exact laneInv_append_ptr lanes op k dk hlen hk hmk hnk h
    · rw [if_neg hp]
      have hrp : repointUpTo op lanes.length k lanes = lanes := by
        apply repointUpTo_eq_self
        intro i d hd ⟨hik, hm, hself⟩
        obtain ⟨hdr, hda⟩ := (laneMatches_iff op d).mp hm
        obtain ⟨hkr, hka⟩ := (laneMatches_iff op dk).mp hmk
        exact h.selfFree i k d dk hd hk (hdr.trans hkr.symm)
          (hda.trans hka.symm) hself hnk
      rw [hrp]
      have hgd : lanes.getD k default = dk := by
        rw [List.getD_eq_getElem?_getD, hk]
        rfl
      rw [hgd]
      apply laneInv_of_fieldEq _ h
      intro i
      by_cases hik : i = k
      · subst hik
        right
        refine ⟨dk, mergeLane op dk, hk, ?_, ?_, ?_, ?_⟩
        · rw [List.getElem?_set, if_pos rfl,
            if_pos (List.getElem?_eq_some.mp hk).1]
        · rw [mergeLane_rscIndex]
        · rw [mergeLane_addrIndex]
        · rw [mergeLane_proxyLane]
      · cases hd : lanes[i]? with
        | none =>
          left
          refine ⟨rfl, ?_⟩
          rw [List.getElem?_set, if_neg (fun hh => hik hh.symm)]
          exact hd
        | some d =>
          right
          refine ⟨d, d, rfl, ?_, rfl, rfl, rfl⟩
          rw [List.getElem?_set, if_neg (fun hh => hik hh.symm)]
          exact hd
  | none =>
    have hnone := firstFreeMatch_none_spec op lanes 0 hff
    show LaneInv (if op.isProxy = true then lanes ++ [newLane op lanes.length]
      else repointUpTo op lanes.length lanes.length lanes ++
        [newLane op UCP_NULL_LANE])
    by_cases hp : op.isProxy = true
    · rw [if_pos hp]
      exact laneInv_append_self lanes op hlen hnone h
    · rw [if_neg hp]
      exact laneInv_repoint_append lanes op hlen hnone h

/-- Invariant of the lane table after any sequence of append/merge
    operations short enough to leave the null sentinel out of range. -/
theorem runLaneOps_laneInv :
    ∀ (ops : List LaneOp) (start : List LaneDesc),
      start.length + ops.length ≤ UCP_NULL_LANE → LaneInv start →
      LaneInv (ops.foldl addLaneDesc start) ∧
        (ops.foldl addLaneDesc start).length ≤ start.length + ops.length := by
  intro ops
  induction ops with
  | nil =>
    intro start hb h
    exact ⟨h, by simp⟩
  | cons op t ih =>
    intro start hb h
    rw [List.foldl_cons]
    have hlen : start.length < UCP_NULL_LANE := by
      simp only [List.length_cons] at hb
      omega
    obtain ⟨hle1, hle2⟩ := addLaneDesc_length start op
    have hb2 : (addLaneDesc start op).length + t.length ≤ UCP_NULL_LANE := by
      simp only [List.length_cons] at hb
      omega
    obtain ⟨hi1, hi2⟩ := ih (addLaneDesc start op) hb2
      (addLaneDesc_laneInv start op hlen h)
    exact ⟨hi1, by simp only [List.length_cons]; omega⟩

/-- The empty lane table satisfies the invariant. -/
theorem laneInv_nil : LaneInv [] := by
  constructor
  · intro i d hd
    exact absurd hd (by simp)
  · intro i j di dj _ hdi
    exact absurd hdi (by simp)
  · intro i j di dj hdi
    exact absurd hdi (by simp)

end UcpWireup

namespace UcpWireup

/-- Claim C2: in any lane table reachable by a sequence of append/merge
    operations (as the selection passes produce it, including the
    self-proxy repoint case), every proxy lane's proxy_lane field indexes
    either the lane itself or a non-proxy lane with the same
    (local resource, remote address) pair. -/
theorem c2_proxy_link_invariant (ops : List LaneOp)
    (hops : ops.length ≤ UCP_NULL_LANE) :
    ∀ (i : Nat) (d : LaneDesc), (runLaneOps ops)[i]? = some d →
      d.proxyLane ≠ UCP_NULL_LANE →
      d.proxyLane = i ∨ ∃ e : LaneDesc,
        (runLaneOps ops)[d.proxyLane]? = some e ∧
        e.rscIndex = d.rscIndex ∧ e.addrIndex = d.addrIndex ∧
        e.proxyLane = UCP_NULL_LANE := by
  have hinv := (runLaneOps_laneInv ops [] (by simpa using hops) laneInv_nil).1
  exact hinv.link

/-- Claim C1, amended: in any lane table reachable by a sequence of
    append/merge operations, at most one lane with a given
    (local resource, remote address) pair is a non-proxy lane; proxy shim
    lanes may share the pair of the lane they front. -/
theorem c1_unique_nonproxy_pair (ops : List LaneOp)
    (hops : ops.length ≤ UCP_NULL_LANE) :
    ∀ (i j : Nat) (di dj : LaneDesc), i ≠ j →
      (runLaneOps ops)[i]? = some di → (runLaneOps ops)[j]? = some dj →
      di.rscIndex = dj.rscIndex → di.addrIndex = dj.addrIndex →
      di.proxyLane = UCP_NULL_LANE → dj.proxyLane = UCP_NULL_LANE →
      False := by
  have hinv := (runLaneOps_laneInv ops [] (by simpa using hops) laneInv_nil).1
  exact hinv.uniqFree

set_option maxRecDepth 4000 in
/-- Claim C1, counterexample: on a concrete input the selection passes
    produce a table of two lanes sharing the pair (resource 0, address 0):
    the RMA lane and the AM proxy shim pointing at it.  The pair therefore
    appears twice in the lane table. -/
theorem c1_counterexample_shared_pair :
    (searchLanes proxyPairInput
      (selectCtxInit proxyPairInput UCP_EP_CREATE_AM_LANE)).1 = Status.ok ∧
    ((searchLanes proxyPairInput
      (selectCtxInit proxyPairInput UCP_EP_CREATE_AM_LANE)).2.laneDescs.map
        fun d => (d.rscIndex, d.addrIndex, d.proxyLane)) =
      [(0, 0, UCP_NULL_LANE), (0, 0, 0)] :=
  of_decide_eq_true (by with_unfolding_all rfl)

theorem addLaneDesc_getElem?_chars (lanes : List LaneDesc) (op : LaneOp)
    (i : Nat) (x : LaneDesc) (hx : (addLaneDesc lanes op)[i]? = some x) :
    (∃ d : LaneDesc, lanes[i]? = some d ∧ x.dstMdIndex = d.dstMdIndex ∧
      x.addrIndex = d.addrIndex ∧ x.rscIndex = d.rscIndex) ∨
    (x.dstMdIndex = op.dstMdIndex ∧ x.addrIndex = op.info.addrIndex ∧
      x.rscIndex = op.info.rscIndex) := by
  cases hff : firstFreeMatch op lanes 0 with
  | some k =>
    have heq : addLaneDesc lanes op =
        (if op.isProxy = true then lanes ++ [newLane op k]
        else (repointUpTo op lanes.length k lanes).set k
          (mergeLane op (lanes.getD k default))) := by
      unfold addLaneDesc
      rw [hff]
    rw [heq] at hx
    obtain ⟨-, dk, hk0, hmk, hnk⟩ := firstFreeMatch_some_spec op lanes 0 k hff
    have hk : lanes[k]? = some dk := by simpa using hk0
    have hklt : k < lanes.length := (List.getElem?_eq_some.mp hk).1
    by_cases hp : op.isProxy = true
    · rw [if_pos hp] at hx
      rcases append_getElem?_cases hx with ⟨hi, hold⟩ | ⟨hi, hxv⟩
      · exact Or.inl ⟨x, hold, rfl, rfl, rfl⟩
      · subst hxv
        exact Or.inr ⟨by simp, by simp, by simp⟩
    · rw [if_neg hp] at hx
      have hgd : lanes.getD k default = dk := by
        rw [List.getD_eq_getElem?_getD, hk]
        rfl
      rw [List.getElem?_set] at hx
      by_cases hik : k = i
      · subst hik
        rw [if_pos rfl] at hx
        rw [if_pos (by unfold repointUpTo; rw [List.length_mapIdx]; exact hklt)] at hx
        injection hx with hx
        subst hx
        rw [hgd]
        exact Or.inl ⟨dk, hk, by simp, by simp, by simp⟩
      · rw [if_neg hik] at hx
        rw [repointUpTo_getElem?] at hx
        cases hd : lanes[i]? with
        | none =>
          rw [hd] at hx
          exact absurd hx (by simp)
        | some d =>
          rw [hd] at hx
          simp only [Option.map_some'] at hx
          injection hx with hx
          subst hx
          by_cases hc : (decide (i < k) && laneMatches op d &&
              (d.proxyLane == i)) = true
          · rw [if_pos hc]
            exact Or.inl ⟨d, rfl, rfl, rfl, rfl⟩
          · rw [if_neg hc]
            exact Or.inl ⟨d, rfl, rfl, rfl, rfl⟩
  | none =>
    have heq : addLaneDesc lanes op =
        (if op.isProxy = true then lanes ++ [newLane op lanes.length]
        else repointUpTo op lanes.length lanes.length lanes ++
          [newLane op UCP_NULL_LANE]) := by
      unfold addLaneDesc
      rw [hff]
    rw [heq] at hx
    by_cases hp : op.isProxy = true
    · rw [if_pos hp] at hx
      rcases append_getElem?_cases hx with ⟨hi, hold⟩ | ⟨hi, hxv⟩
      · exact Or.inl ⟨x, hold, rfl, rfl, rfl⟩
      · subst hxv
        exact Or.inr ⟨by simp, by simp, by simp⟩
    · rw [if_neg hp] at hx
      rcases append_getElem?_cases hx with ⟨hi, hold⟩ | ⟨hi, hxv⟩
      · rw [repointUpTo_getElem?] at hold
        cases hd : lanes[i]? with
        | none =>
          rw [hd] at hold
          exact absurd hold (by simp)
        | some d =>
          rw [hd] at hold
          simp only [Option.map_some'] at hold
          injection hold with hold
          subst hold
          by_cases hc : (decide (i < lanes.length) && laneMatches op d &&
              (d.proxyLane == i)) = true
          · rw [if_pos hc]
            exact Or.inl ⟨d, rfl, rfl, rfl, rfl⟩
          · rw [if_neg hc]
            exact Or.inl ⟨d, rfl, rfl, rfl, rfl⟩
      · subst hxv
        exact Or.inr ⟨by simp, by simp, by simp⟩

/-- Every lane of a table built by well-formed operations records the
    remote MD of its own address-list entry. -/
theorem runOps_md_coherent (mdOf : Nat → Nat) :
    ∀ (ops : List LaneOp) (start : List LaneDesc),
      (∀ o ∈ ops, o.dstMdIndex = mdOf o.info.addrIndex) →
      (∀ d ∈ start, d.dstMdIndex = mdOf d.addrIndex) →
      ∀ d ∈ ops.foldl addLaneDesc start, d.dstMdIndex = mdOf d.addrIndex := by
  intro ops
  induction ops with
  | nil =>
    intro start _ hstart
    exact hstart
  | cons op t ih =>
    intro start hwf hstart d hd
    rw [List.foldl_cons] at hd
    refine ih (addLaneDesc start op) (fun o ho => hwf o (by simp [ho])) ?_ d hd
    intro x hx
    obtain ⟨i, hxi⟩ := List.mem_iff_getElem?.mp hx
    rcases addLaneDesc_getElem?_chars start op i x hxi with
      ⟨e, he, hmd, haddr, -⟩ | ⟨hmd, haddr, -⟩
    · rw [hmd, haddr]
      exact hstart e (List.getElem?_mem he)
    · rw [hmd, haddr]
      exact hwf op (by simp)

/-- Claim C10: the always-enabled assertion comparing the incoming remote
    MD with the existing lane's remote MD in the merge path can never fire
    for a sequence of additions in which every operation carries the MD
    index of its own address-list entry, as every call site of the
    selection passes does. -/
theorem c10_md_assert_never_fires (mdOf : Nat → Nat) (ops1 : List LaneOp)
    (op : LaneOp) (ops2 : List LaneOp)
    (hwf : ∀ o ∈ ops1 ++ op :: ops2, o.dstMdIndex = mdOf o.info.addrIndex) :
    mdAssertOk (runLaneOps ops1) op := by
  intro d hd hm
  have hco := runOps_md_coherent mdOf ops1 []
    (fun o ho => hwf o (by simp [ho])) (by simp) d hd
  obtain ⟨-, hda⟩ := (laneMatches_iff op d).mp hm
  rw [hco, hda]
  exact (hwf op (by simp)).symm

end UcpWireup

namespace UcpWireup

theorem fillKeyStep_amBwLanes_pos (descs : List LaneDesc) (key : ConfigKey)
    (lane : Nat)
    (h : ((descs.getD lane default).usage &&& UCP_WIREUP_LANE_USAGE_AM_BW != 0 &&
      decide (lane < UCP_MAX_LANES - 1)) = true) :
    (fillKeyStep descs key lane).amBwLanes =
      key.amBwLanes.set (lane + 1) lane := by
  simp only [fillKeyStep, h, if_true]
  split <;> split <;> split <;> split <;> split <;> rfl

theorem fillKeyStep_amBwLanes_neg (descs : List LaneDesc) (key : ConfigKey)
    (lane : Nat)
    (h : ¬(((descs.getD lane default).usage &&& UCP_WIREUP_LANE_USAGE_AM_BW != 0 &&
      decide (lane < UCP_MAX_LANES - 1)) = true)) :
    (fillKeyStep descs key lane).amBwLanes = key.amBwLanes := by
  simp only [fillKeyStep, if_neg h]
  split <;> split <;> split <;> split <;> split <;> rfl

/-- Invariant of the filling loop over the AM-BW array: its length stays
    the array capacity, and every entry is either the null lane or the
    index of a lane carrying the AM-BW usage bit. -/
theorem fillKeyLoop_amBwLanes_inv (descs : List LaneDesc) :
    (fillKeyLoop descs).amBwLanes.length = UCP_MAX_LANES ∧
    ∀ x ∈ (fillKeyLoop descs).amBwLanes, x = UCP_NULL_LANE ∨
      (x < descs.length ∧
        (descs.getD x default).usage &&& UCP_WIREUP_LANE_USAGE_AM_BW ≠ 0) := by
  have hgen : ∀ (L : List Nat) (key : ConfigKey),
      (∀ l ∈ L, l < descs.length) →
      key.amBwLanes.length = UCP_MAX_LANES →
      (∀ x ∈ key.amBwLanes, x = UCP_NULL_LANE ∨
        (x < descs.length ∧
          (descs.getD x default).usage &&& UCP_WIREUP_LANE_USAGE_AM_BW ≠ 0)) →
      (L.foldl (fillKeyStep descs) key).amBwLanes.length = UCP_MAX_LANES ∧
      ∀ x ∈ (L.foldl (fillKeyStep descs) key).amBwLanes,
        x = UCP_NULL_LANE ∨ (x < descs.length ∧
          (descs.getD x default).usage &&& UCP_WIREUP_LANE_USAGE_AM_BW ≠ 0) := by
    intro L
    induction L with
    | nil =>
      intro key _ hl hm
      exact ⟨hl, hm⟩
    | cons lane t ih =>
      intro key hL hl hm
      rw [List.foldl_cons]
      refine ih (fillKeyStep descs key lane) (fun l hlm => hL l (by simp [hlm]))
        ?_ ?_
      · by_cases hc : ((descs.getD lane default).usage &&&
            UCP_WIREUP_LANE_USAGE_AM_BW != 0 &&
            decide (lane < UCP_MAX_LANES - 1)) = true
        · rw [fillKeyStep_amBwLanes_pos descs key lane hc, List.length_set]
          exact hl
        · rw [fillKeyStep_amBwLanes_neg descs key lane hc]
          exact hl
      · intro x hx
        by_cases hc : ((descs.getD lane default).usage &&&
            UCP_WIREUP_LANE_USAGE_AM_BW != 0 &&
            decide (lane < UCP_MAX_LANES - 1)) = true
        · rw [fillKeyStep_amBwLanes_pos descs key lane hc] at hx
          rcases List.mem_or_eq_of_mem_set hx with hxm | hxe
          · exact hm x hxm
          · subst hxe
            right
            refine ⟨hL x (by simp), ?_⟩
            obtain ⟨h1, -⟩ := Bool.and_eq_true_iff.mp hc
            simpa using h1
        · rw [fillKeyStep_amBwLanes_neg descs key lane hc] at hx
          exact hm x hx
  refine hgen (List.range descs.length) _ (fun l hlm => List.mem_range.mp hlm)
    (by simp) ?_
  intro x hx
  left
  exact List.eq_of_mem_replicate hx

/-- The slot score of the null lane is zero. -/
theorem slotScore_null (descs : List LaneDesc) (f : LaneDesc → ℚ) :
    slotScore descs f UCP_NULL_LANE = 0 := by
  unfold slotScore
  simp

end UcpWireup

namespace UcpWireup

/-- Claim C7 (amended): in the finalized key, slot zero of the AM-BW array
    holds the AM lane; the remaining slots are non-increasing in AM-BW
    score, and when every AM-BW lane scores positively the null slots
    trail the real ones.  (The original strictly-decreasing form fails for
    equal scores, see the counterexample.) -/
theorem c7_am_bw_lane_order (inp : Input) (ctx : SelectCtx)
    (hlen : ctx.laneDescs.length ≤ UCP_MAX_LANES)
    (hpos : ∀ d ∈ ctx.laneDescs,
      d.usage &&& UCP_WIREUP_LANE_USAGE_AM_BW ≠ 0 → 0 < d.amBwScore) :
    (constructLanes inp ctx).1.amBwLanes[0]? =
      some (constructLanes inp ctx).1.amLane ∧
    List.Pairwise (fun a b =>
      slotScore ctx.laneDescs (fun d => d.amBwScore) b ≤
      slotScore ctx.laneDescs (fun d => d.amBwScore) a)
      ((constructLanes inp ctx).1.amBwLanes.drop 1) ∧
    List.Pairwise (fun a b => a = UCP_NULL_LANE → b = UCP_NULL_LANE)
      ((constructLanes inp ctx).1.amBwLanes.drop 1) := by
  obtain ⟨hblen, hbmem⟩ := fillKeyLoop_amBwLanes_inv ctx.laneDescs
  have heq : (constructLanes inp ctx).1.amBwLanes =
      ((fillKeyLoop ctx.laneDescs).amBwLanes.take 1 ++
        sortLanesDesc ctx.laneDescs (fun d => d.amBwScore)
          ((fillKeyLoop ctx.laneDescs).amBwLanes.drop 1)).set 0
        (fillKeyLoop ctx.laneDescs).amLane := rfl
  cases hbase : (fillKeyLoop ctx.laneDescs).amBwLanes with
  | nil =>
    rw [hbase] at hblen
    simp [UCP_MAX_LANES] at hblen
  | cons b0 btail =>
    rw [hbase] at heq
    have heq2 : (constructLanes inp ctx).1.amBwLanes =
        (fillKeyLoop ctx.laneDescs).amLane ::
          sortLanesDesc ctx.laneDescs (fun d => d.amBwScore) btail := by
      rw [heq]
      rfl
    haveI hTot : IsTotal Nat (slotGe ctx.laneDescs (fun d => d.amBwScore)) :=
      ⟨fun a b => (le_total
        (slotScore ctx.laneDescs (fun d => d.amBwScore) a)
        (slotScore ctx.laneDescs (fun d => d.amBwScore) b)).symm⟩
    haveI hTrans : IsTrans Nat (slotGe ctx.laneDescs (fun d => d.amBwScore)) :=
      ⟨fun a b c hab hbc => le_trans hbc hab⟩
    have hsorted : List.Pairwise (slotGe ctx.laneDescs (fun d => d.amBwScore))
        (sortLanesDesc ctx.laneDescs (fun d => d.amBwScore) btail) :=
      List.sorted_insertionSort _ btail
    have hmemchar : ∀ x ∈ sortLanesDesc ctx.laneDescs (fun d => d.amBwScore)
        btail, x = UCP_NULL_LANE ∨
        0 < slotScore ctx.laneDescs (fun d => d.amBwScore) x := by
      intro x hx
      have hxb : x ∈ btail :=
        (List.perm_insertionSort _ btail).mem_iff.mp hx
      have hxbase : x ∈ (fillKeyLoop ctx.laneDescs).amBwLanes := by
        rw [hbase]
        exact List.mem_cons_of_mem b0 hxb
      rcases hbmem x hxbase with hnull | ⟨hxlt, husage⟩
      · exact Or.inl hnull
      · right
        have hxne : ¬(x == UCP_NULL_LANE) = true := by
          simp only [beq_iff_eq]
          have : UCP_MAX_LANES < UCP_NULL_LANE := by decide
          omega
        unfold slotScore
        rw [if_neg hxne]
        have hgetd : ctx.laneDescs.getD x default ∈ ctx.laneDescs := by
          rw [List.getD_eq_getElem?_getD, List.getElem?_eq_getElem hxlt]
          exact List.getElem_mem hxlt
        exact hpos _ hgetd husage
    have hAm : (constructLanes inp ctx).1.amLane =
        (fillKeyLoop ctx.laneDescs).amLane := rfl
    refine ⟨?_, ?_, ?_⟩
    · rw [heq2, hAm]
      exact List.getElem?_cons_zero
    · rw [heq2]
      exact hsorted
    · rw [heq2]
      show List.Pairwise _ (sortLanesDesc ctx.laneDescs
        (fun d => d.amBwScore) btail)
      refine hsorted.imp_of_mem ?_
      intro a b ha hb hR hA
      unfold slotGe at hR
      subst hA
      rcases hmemchar b hb with hbn | hbpos
      · exact hbn
      · exfalso
        rw [slotScore_null] at hR
        exact absurd (lt_of_lt_of_le hbpos hR) (by simp)
  


end UcpWireup

namespace UcpWireup

set_option maxRecDepth 8000 in
/-- Claim C7, counterexample: on a concrete three-rail input the finalized
    key has am_bw_lanes slots one and two holding two distinct lanes with
    equal AM-BW scores, so the array is not strictly decreasing. -/
theorem c7_counterexample_equal_scores :
    (searchLanes amBwTieInput (selectCtxInit amBwTieInput 0)).1 = Status.ok ∧
    (constructLanes amBwTieInput
      (searchLanes amBwTieInput (selectCtxInit amBwTieInput 0)).2).1.amBwLanes
      = [0, 1, 2, UCP_NULL_LANE, UCP_NULL_LANE, UCP_NULL_LANE,
          UCP_NULL_LANE, UCP_NULL_LANE] ∧
    ((searchLanes amBwTieInput
      (selectCtxInit amBwTieInput 0)).2.laneDescs.getD 1 default).amBwScore =
    ((searchLanes amBwTieInput
      (selectCtxInit amBwTieInput 0)).2.laneDescs.getD 2 default).amBwScore :=
  of_decide_eq_true (by with_unfolding_all rfl)

set_option maxRecDepth 20000 in
/-- Claim C8, failing input: the selection passes admit nine lanes on a
    valid input with nine distinct remote MDs, exceeding the fixed
    capacity of the lane-descriptor array; the C code writes the ninth
    descriptor out of bounds. -/
theorem c8_lane_overflow :
    (searchLanes overflowInput (selectCtxInit overflowInput 0)).1 =
      Status.ok ∧
    (searchLanes overflowInput
      (selectCtxInit overflowInput 0)).2.laneDescs.length = 9 ∧
    UCP_MAX_LANES <
      (searchLanes overflowInput
        (selectCtxInit overflowInput 0)).2.laneDescs.length ∧
    (∀ d ∈ (searchLanes overflowInput
      (selectCtxInit overflowInput 0)).2.laneDescs, d.usage ≠ 0) :=
  of_decide_eq_true (by with_unfolding_all rfl)

/-- Claim C9: the selector entry point is a pure function of its inputs
    (local resources, remote address list, endpoint parameters and init
    flags, all carried by the Input record and the flags argument), so two
    runs on identical inputs produce identical status, configuration key
    and address-index array. -/
theorem c9_select_lanes_deterministic (inp1 inp2 : Input)
    (epInitFlags1 epInitFlags2 : Nat) (hinp : inp1 = inp2)
    (hflags : epInitFlags1 = epInitFlags2) :
    selectLanes inp1 epInitFlags1 = selectLanes inp2 epInitFlags2 := by
  rw [hinp, hflags]

theorem c9_witness :
    selectLanes proxyPairInput UCP_EP_CREATE_AM_LANE =
      selectLanes proxyPairInput UCP_EP_CREATE_AM_LANE :=
  c9_select_lanes_deterministic proxyPairInput proxyPairInput
    UCP_EP_CREATE_AM_LANE UCP_EP_CREATE_AM_LANE rfl rfl

theorem c2_witness :
    exProxyDesc.proxyLane = 1 ∨ ∃ e : LaneDesc,
      (runLaneOps exOps)[exProxyDesc.proxyLane]? = some e ∧
      e.rscIndex = exProxyDesc.rscIndex ∧
      e.addrIndex = exProxyDesc.addrIndex ∧
      e.proxyLane = UCP_NULL_LANE :=
  c2_proxy_link_invariant exOps
    (of_decide_eq_true (by with_unfolding_all rfl)) 1 exProxyDesc
    (of_decide_eq_true (by with_unfolding_all rfl))
    (of_decide_eq_true (by with_unfolding_all rfl))

theorem c1_witness :
    ¬ ∃ di dj : LaneDesc, (runLaneOps exOps)[0]? = some di ∧
      (runLaneOps exOps)[1]? = some dj ∧ di.rscIndex = dj.rscIndex ∧
      di.addrIndex = dj.addrIndex ∧ di.proxyLane = UCP_NULL_LANE ∧
      dj.proxyLane = UCP_NULL_LANE :=
  fun ⟨di, dj, h1, h2, h3, h4, h5, h6⟩ =>
    c1_unique_nonproxy_pair exOps
      (of_decide_eq_true (by with_unfolding_all rfl)) 0 1 di dj
      (of_decide_eq_true (by with_unfolding_all rfl)) h1 h2 h3 h4 h5 h6

theorem c10_witness : mdAssertOk (runLaneOps [exOpRma]) exOpAmProxy :=
  c10_md_assert_never_fires (fun _ => 0) [exOpRma] exOpAmProxy []
    (of_decide_eq_true (by with_unfolding_all rfl))

theorem c3_witness :
    (selectTransport proxyPairInput (tagCriteria proxyPairInput) 0 0 0 0
      false).1 = .ok ∨
    (selectTransport proxyPairInput (tagCriteria proxyPairInput) 0 0 0 0
      false).1 = .errUnreachable :=
  (c3_select_transport_unreachable_or_ok proxyPairInput
    (tagCriteria proxyPairInput) 0 0 0 0 false).1

theorem c6_witness :
    (addTagLane amBwTieInput (selectCtxInit amBwTieInput 0)
      ErrMode.modeNone).1 = .ok :=
  (c6_tag_lane_gating amBwTieInput (selectCtxInit amBwTieInput 0)
    ErrMode.modeNone).1

end UcpWireup

namespace UcpWireup

set_option maxRecDepth 4000 in
theorem c4_witness :
    ∃ infos : List SelectInfo,
      addMemaccessLanes proxyPairInput exRmaCriteria UCS_MASK64
        UCP_WIREUP_LANE_USAGE_RMA (selectCtxInit proxyPairInput 0) =
        (.ok, memaccessOpFold proxyPairInput UCP_WIREUP_LANE_USAGE_RMA
          (addLaneCtx (selectCtxInit proxyPairInput 0) proxyRegInfo
            (proxyPairInput.addr proxyRegInfo.addrIndex).mdIndex
            UCP_WIREUP_LANE_USAGE_RMA false) infos) ∧
      testAllFlags (proxyPairInput.addr proxyRegInfo.addrIndex).mdFlags
        (UCT_MD_FLAG_REG ||| exRmaCriteria.remoteMdFlags) = true ∧
      (∀ i ∈ infos,
        scoreCmp i.score proxyRegInfo.score > 0 ∧
        testAllFlags (proxyPairInput.addr i.addrIndex).mdFlags
          (UCT_MD_FLAG_ALLOC ||| exRmaCriteria.remoteMdFlags) = true) ∧
      (proxyRegInfo :: infos).Pairwise (fun a b =>
        (proxyPairInput.addr a.addrIndex).mdIndex ≠
        (proxyPairInput.addr b.addrIndex).mdIndex) ∧
      (proxyRegInfo :: infos).Pairwise (fun a b =>
        (proxyPairInput.rsc a.rscIndex).mdIndex ≠
        (proxyPairInput.rsc b.rscIndex).mdIndex) :=
  c4_memaccess_two_phase proxyPairInput exRmaCriteria UCS_MASK64
    UCP_WIREUP_LANE_USAGE_RMA (selectCtxInit proxyPairInput 0)
    proxyRegInfo (by with_unfolding_all rfl)

set_option maxRecDepth 8000 in
theorem c5_witness :
    ((selectCtxInit amBwTieInput 0).allowAm = true →
      addMemaccessLanes amBwTieInput exRmaCriteria UCS_MASK64
        UCP_WIREUP_LANE_USAGE_RMA (selectCtxInit amBwTieInput 0) =
        (.ok, { selectCtxInit amBwTieInput 0 with
          epInitFlags := (selectCtxInit amBwTieInput 0).epInitFlags |||
            UCP_EP_CREATE_AM_LANE })) ∧
    ((selectCtxInit amBwTieInput 0).allowAm = false →
      addMemaccessLanes amBwTieInput exRmaCriteria UCS_MASK64
        UCP_WIREUP_LANE_USAGE_RMA (selectCtxInit amBwTieInput 0) =
        (Status.errUnreachable, selectCtxInit amBwTieInput 0)) ∧
    (∀ epInitFlags : Nat,
      (selectCtxInit amBwTieInput epInitFlags).allowAm =
        allowAmEmulationLayer amBwTieInput.params epInitFlags) :=
  c5_memaccess_failure_am_fallback amBwTieInput exRmaCriteria UCS_MASK64
    UCP_WIREUP_LANE_USAGE_RMA (selectCtxInit amBwTieInput 0)
    Status.errUnreachable (SelectInfo.mk 0 0 0)
    (of_decide_eq_true (by with_unfolding_all rfl)) (by decide)

set_option maxRecDepth 8000 in
theorem c7_witness :
    (constructLanes amBwTieInput amBwTieCtx).1.amBwLanes[0]? =
      some (constructLanes amBwTieInput amBwTieCtx).1.amLane ∧
    List.Pairwise (fun a b =>
      slotScore amBwTieCtx.laneDescs (fun d => d.amBwScore) b ≤
      slotScore amBwTieCtx.laneDescs (fun d => d.amBwScore) a)
      ((constructLanes amBwTieInput amBwTieCtx).1.amBwLanes.drop 1) ∧
    List.Pairwise (fun a b => a = UCP_NULL_LANE → b = UCP_NULL_LANE)
      ((constructLanes amBwTieInput amBwTieCtx).1.amBwLanes.drop 1) :=
  c7_am_bw_lane_order amBwTieInput amBwTieCtx
    (of_decide_eq_true (by with_unfolding_all rfl))
    (of_decide_eq_true (by with_unfolding_all rfl))

end UcpWireup
